import Mathlib

/-!
# Arena allocator (`src/src/main.cpp`): embedding and verification

The development embeds `AlignedArenaAllocator` and the `GlobalAllocator` it
falls back to.

Modelling conventions.
* Addresses and sizes are natural numbers below `2 ^ 64` (a 64-bit target);
  `nullptr` is address `0`.  Pointer and `size_t` arithmetic wraps around at
  `2 ^ 64`, as it does on the machine: the cursor addition of `Allocate` and
  the address computation of `std::align` are taken modulo `2 ^ 64`.
* Memory is a map from addresses to bytes.  A `FreeList*` occupies 8 bytes and
  is stored little-endian (a 64-bit target, as `alignas(8)`/`sizeof(Thing) = 8`
  in the source suggest).
* The process heap (`::operator new` / `::operator delete`) is outside the
  repository.  Each call that may reach `::operator new` takes the address the
  heap would hand out as an extra argument `g` (the heap is taken to satisfy
  every request), and every call made on the `m_globalAllocator` member is
  appended to a trace kept in the state.
* `exit(EXIT_FAILURE)` is the result `none`.
* `printf` diagnostics are not modelled.
-/

namespace ArenaAllocator

/-! ## Memory -/

/-- Byte-addressed memory: the value stored at each address. -/
abbrev Mem := Nat → Nat

/-- The byte stored at address `a`. -/
def readByte (m : Mem) (a : Nat) : Nat := m a % 256

/-- Load of an 8-byte little-endian pointer at address `p`
(`m_freeListHead->m_next`, line 134). -/
def readPtr (m : Mem) (p : Nat) : Nat :=
  readByte m p + 256 * (readByte m (p + 1) + 256 * (readByte m (p + 2)
    + 256 * (readByte m (p + 3) + 256 * (readByte m (p + 4)
    + 256 * (readByte m (p + 5) + 256 * (readByte m (p + 6)
    + 256 * readByte m (p + 7)))))))

/-- Store of the 8-byte little-endian pointer `v` at address `p`
(`newHead->m_next = m_freeListHead`, line 200). -/
def writePtr (m : Mem) (p v : Nat) : Mem :=
  fun a => if p ≤ a ∧ a < p + 8 then (v / 256 ^ (a - p)) % 256 else m a

/-- Model of `memcpy(dst, src, n)` on non-overlapping ranges: the `n` bytes at
`dst` become the `n` bytes that were at `src`. -/
def memcpy (m : Mem) (dst src n : Nat) : Mem :=
  fun a => if dst ≤ a ∧ a < dst + n then m (src + (a - dst)) else m a

/-- A client store of one byte `v` at address `a`. -/
def storeByte (m : Mem) (a v : Nat) : Mem :=
  fun x => if x = a then v % 256 else m x

/-! ## Constants -/

/-- Line 8: `constexpr int POOL_SIZE = 1024 * 4`. -/
def POOL_SIZE : Nat := 1024 * 4

/-- Line 9: `constexpr int MIN_BLOCK_SIZE = 8 * 8`. -/
def MIN_BLOCK_SIZE : Nat := 8 * 8

/-- Line 83: `const int ALIGNMENT = 8`. -/
def ALIGNMENT : Nat := 8

/-- The value of `sizeof(Thing)` for `struct alignas(8) Thing { float x; float y; }`. -/
def sizeofThing : Nat := 8

/-! ## The backing allocator -/

/-- A call made on the `GlobalAllocator` member. -/
inductive HeapCall where
  | Allocate (sizeBytes : Nat) (result : Nat)
  | DeAllocate (ptr : Nat) (osize : Nat)
  deriving DecidableEq, Repr

/-- Trace of the calls made on `m_globalAllocator`, oldest first. -/
abbrev GlobalAllocator := List HeapCall

/-- Method `GlobalAllocator::Allocate` (lines 20-24): returns what `::operator new`
returns, here the supplied address `g`. -/
def GlobalAllocator.Allocate (t : GlobalAllocator) (sizeBytes g : Nat) :
    Nat × GlobalAllocator :=
  (g, t ++ [HeapCall.Allocate sizeBytes g])

/-- Method `GlobalAllocator::DeAllocate` (lines 25-29): `::operator delete(ptr)`;
the call is recorded with both of its arguments. -/
def GlobalAllocator.DeAllocate (t : GlobalAllocator) (ptr osize : Nat) :
    GlobalAllocator :=
  t ++ [HeapCall.DeAllocate ptr osize]

/-! ## The arena allocator -/

/-- The fields of `AlignedArenaAllocator` (lines 78-91) together with the
memory the allocator reads and writes. -/
structure AlignedArenaAllocator where
  m_begin : Nat
  m_end : Nat
  m_curr : Nat
  pool_size : Nat
  m_freeListHead : Nat
  m_globalAllocator : GlobalAllocator
  mem : Mem

/-- Method `reset_pool` (lines 99-103). -/
def reset_pool (s : AlignedArenaAllocator) : AlignedArenaAllocator :=
  { s with m_curr := s.m_begin, m_freeListHead := 0 }

/-- The constructor (lines 93-97) over the buffer `(b, e)`, `b ≤ e`, of fewer
than `2 ^ 64` bytes, in memory `m`. -/
def construct (b e : Nat) (m : Mem) : AlignedArenaAllocator :=
  reset_pool
    { m_begin := b, m_end := e, m_curr := 0, pool_size := (e - b) + 1,
      m_freeListHead := 0, m_globalAllocator := [], mem := m }

/-- Method `sizeToAllocate` (lines 105-115). -/
def sizeToAllocate (size : Nat) : Nat :=
  if size < MIN_BLOCK_SIZE then MIN_BLOCK_SIZE else size

/-- Library function `std::align(alignment, size, ptr, space)` for a
power-of-two alignment and a pointer below `2 ^ 64`; `ptr` and `space` are
passed by reference.  The aligned address `(ptr - 1 + alignment) & -alignment`
and the padding `aligned - ptr` are computed in `uintptr_t`, modulo `2 ^ 64`.
`none` is the `nullptr` result with nothing modified; otherwise the new values
of `ptr` and `space`, the new `ptr` being the returned pointer (it is null
when the aligned address wraps around to 0). -/
def stdAlign (alignment size ptr space : Nat) : Option (Nat × Nat) :=
  if space < size then none
  else
    let aligned := ((ptr + alignment - 1) / alignment * alignment) % 2 ^ 64
    let diff := (aligned + 2 ^ 64 - ptr) % 2 ^ 64
    if diff > space - size then none else some (aligned, space - diff)

/-- Method `Allocate` (lines 117-179).  `g` is the address `::operator new` returns if
it is called.  The result is the returned pointer and the new state, or `none`
when the process exits (line 176): `std::align` returned a null pointer.  The
cursor addition of line 156 wraps around at `2 ^ 64`. -/
def Allocate (s : AlignedArenaAllocator) (sizeBytes g : Nat) :
    Option (Nat × AlignedArenaAllocator) :=
  let allocateBytes := sizeToAllocate sizeBytes
  if allocateBytes = MIN_BLOCK_SIZE ∧ s.m_freeListHead ≠ 0 then
    let ptr := s.m_freeListHead
    some (ptr, { s with m_freeListHead := readPtr s.mem s.m_freeListHead })
  else
    match stdAlign ALIGNMENT sizeofThing s.m_curr s.pool_size with
    | some (curr, space) =>
      if curr ≠ 0 then
        let ptr := curr
        let s1 := { s with m_curr := (curr + allocateBytes) % 2 ^ 64, pool_size := space }
        if s1.m_curr ≤ s1.m_end then some (ptr, s1)
        else
          let r := s1.m_globalAllocator.Allocate sizeBytes g
          some (r.1, { s1 with m_globalAllocator := r.2 })
      else none
    | none => none

/-- Method `DeAllocate` (lines 181-214). -/
def DeAllocate (s : AlignedArenaAllocator) (ptr osize : Nat) :
    AlignedArenaAllocator :=
  if ptr ≥ s.m_begin ∧ ptr ≤ s.m_end then
    let allocatedBytes := sizeToAllocate osize
    if allocatedBytes = MIN_BLOCK_SIZE then
      { s with mem := writePtr s.mem ptr s.m_freeListHead, m_freeListHead := ptr }
    else s
  else
    { s with m_globalAllocator := s.m_globalAllocator.DeAllocate ptr osize }

/-- Method `ReAllocate` (lines 218-233). -/
def ReAllocate (s : AlignedArenaAllocator) (ptr osize nsize g : Nat) :
    Option (Nat × AlignedArenaAllocator) :=
  match Allocate s nsize g with
  | none => none
  | some (new_piece_of_memory, s1) =>
    let s2 := { s1 with mem := memcpy s1.mem new_piece_of_memory ptr (min osize nsize) }
    some (new_piece_of_memory, DeAllocate s2 ptr osize)

/-- Callback `l_alloc` (lines 235-261); the pool `ud` is the state `s`. -/
def l_alloc (s : AlignedArenaAllocator) (ptr osize nsize g : Nat) :
    Option (Nat × AlignedArenaAllocator) :=
  if nsize = 0 then
    if ptr ≠ 0 then some (0, DeAllocate s ptr osize) else some (0, s)
  else
    if ptr = 0 then Allocate s nsize g else ReAllocate s ptr osize nsize g

/-! ## Which branch of `Allocate` serves a request -/

/-- The four ways a call of `Allocate` can end. -/
inductive Path where
  | freeList
  | bump
  | backing
  | exit
  deriving DecidableEq, Repr

/-- The branch of `Allocate` (lines 123, 144, 161) taken in state `s` for a
request of `sizeBytes` bytes. -/
def servedBy (s : AlignedArenaAllocator) (sizeBytes : Nat) : Path :=
  if sizeToAllocate sizeBytes = MIN_BLOCK_SIZE ∧ s.m_freeListHead ≠ 0 then Path.freeList
  else
    match stdAlign ALIGNMENT sizeofThing s.m_curr s.pool_size with
    | some (curr, _) =>
      if curr ≠ 0 then
        if (curr + sizeToAllocate sizeBytes) % 2 ^ 64 ≤ s.m_end then Path.bump
        else Path.backing
      else Path.exit
    | none => Path.exit

/-- The cursor addition `m_curr + allocateBytes` of line 156 leaves the
address space in state `s` for a request of `sizeBytes` bytes: the request is
not served by the free list and the aligned cursor plus the block length
reaches `2 ^ 64`, so the machine addition wraps around. -/
def cursorWraps (s : AlignedArenaAllocator) (sizeBytes : Nat) : Bool :=
  if sizeToAllocate sizeBytes = MIN_BLOCK_SIZE ∧ s.m_freeListHead ≠ 0 then false
  else
    match stdAlign ALIGNMENT sizeofThing s.m_curr s.pool_size with
    | some (curr, _) => decide (2 ^ 64 ≤ curr + sizeToAllocate sizeBytes)
    | none => false

/-! ## Sequences of calls -/

/-- A call on the allocator made by its client. -/
inductive Op where
  | alloc (sizeBytes g : Nat)
  | dealloc (ptr osize : Nat)
  | realloc (ptr osize nsize g : Nat)
  | reset
  deriving DecidableEq, Repr

/-- One call: the pointer it returns (if it returns one) and the new state;
`none` when the process exits. -/
def stepOp (s : AlignedArenaAllocator) : Op → Option (Option Nat × AlignedArenaAllocator)
  | Op.alloc n g => (Allocate s n g).map fun r => (some r.1, r.2)
  | Op.dealloc p n => some (none, DeAllocate s p n)
  | Op.realloc p o n g => (ReAllocate s p o n g).map fun r => (some r.1, r.2)
  | Op.reset => some (none, reset_pool s)

/-- A sequence of calls, left to right; `none` when the process exits on the
way. -/
def runOps (s : AlignedArenaAllocator) : List Op → Option AlignedArenaAllocator
  | [] => some s
  | op :: ops =>
    match stepOp s op with
    | some (_, s1) => runOps s1 ops
    | none => none

/-- The cursor addition wraps around in the call `op` made in state `s`. -/
def opWraps (s : AlignedArenaAllocator) : Op → Bool
  | Op.alloc n _ => cursorWraps s n
  | Op.realloc _ _ n _ => cursorWraps s n
  | _ => false

/-- The cursor addition wraps around in some call of the sequence run from
state `s`. -/
def runWraps (s : AlignedArenaAllocator) : List Op → Bool
  | [] => false
  | op :: ops =>
    opWraps s op ||
      match stepOp s op with
      | some (_, s1) => runWraps s1 ops
      | none => false

/-- The blocks handed out by the bump path of `Allocate` (lines 155-166) in
one call: the returned pointer and the block length `max(n, MIN_BLOCK_SIZE)`. -/
def bumpBlock (s : AlignedArenaAllocator) : Op → List (Nat × Nat)
  | Op.alloc n g =>
    match Allocate s n g with
    | some (p, _) => if servedBy s n = Path.bump then [(p, max n MIN_BLOCK_SIZE)] else []
    | none => []
  | Op.realloc _ _ n g =>
    match Allocate s n g with
    | some (p, _) => if servedBy s n = Path.bump then [(p, max n MIN_BLOCK_SIZE)] else []
    | none => []
  | _ => []

/-- The blocks handed out by the bump path along a sequence of calls, in the
order of the calls. -/
def bumpBlocks (s : AlignedArenaAllocator) : List Op → List (Nat × Nat)
  | [] => []
  | op :: ops =>
    match stepOp s op with
    | some (_, s1) => bumpBlock s op ++ bumpBlocks s1 ops
    | none => []

/-- Two address ranges `[start, start + length)` do not overlap. -/
def blocksDisjoint (x y : Nat × Nat) : Prop :=
  x.1 + x.2 ≤ y.1 ∨ y.1 + y.2 ≤ x.1

instance (x y : Nat × Nat) : Decidable (blocksDisjoint x y) := by
  unfold blocksDisjoint; infer_instance

/-- Memory holding zero at every address. -/
def zeroMem : Mem := fun _ => 0

/-! ## Clients that follow the allocation protocol -/

/-- The length of the block at `p` that was requested with `n` bytes: a block
of the arena `[b, e]` has `sizeToAllocate n` bytes, a block of the heap has
`n`. -/
def blockLen (b e p n : Nat) : Nat :=
  if b ≤ p ∧ p ≤ e then sizeToAllocate n else n

/-- The blocks `(pointer, length)` of the live allocations `(pointer, requested size)`. -/
def liveBlocks (b e : Nat) (live : List (Nat × Nat)) : List (Nat × Nat) :=
  live.map fun x => (x.1, blockLen b e x.1 x.2)

/-- The blocks `(pointer, MIN_BLOCK_SIZE)` of the free-list nodes. -/
def nodeBlocks (fl : List Nat) : List (Nat × Nat) :=
  fl.map fun p => (p, MIN_BLOCK_SIZE)

/-- What is assumed of the address `g` that `::operator new(n, align_val_t(8))`
returns while the blocks `live` are allocated: it is 8-aligned, the block
`[g, g + n)` lies outside the arena buffer `[b, e]`, and it overlaps no live
block. -/
def Fresh (b e : Nat) (live : List (Nat × Nat)) (g n : Nat) : Prop :=
  g % 8 = 0 ∧ ((g + n ≤ b ∧ g < b) ∨ e < g) ∧
  ∀ x ∈ live, blocksDisjoint (g, n) (x.1, blockLen b e x.1 x.2)

/-- The states reachable by a client that follows the protocol, together with
the list of its live allocations `(pointer, requested size)`.  The arena is
constructed over a buffer `[b, e]` of the 64-bit address space that does not
start at the null address; no request is so large that the cursor addition
wraps around; the client deallocates and reallocates live pointers only, with
the size it requested; it stores into the requested bytes of live blocks
only; after `reset_pool` no allocation is live. -/
inductive Reach (b e : Nat) : AlignedArenaAllocator → List (Nat × Nat) → Prop
  | init (m : Mem) (hb : 0 < b) (hbe : b ≤ e) (he : e < 2 ^ 64) :
      Reach b e (construct b e m) []
  | alloc {s : AlignedArenaAllocator} {live : List (Nat × Nat)}
      (n g p : Nat) (s1 : AlignedArenaAllocator) :
      Reach b e s live → Fresh b e live g n → cursorWraps s n = false →
      Allocate s n g = some (p, s1) →
      Reach b e s1 ((p, n) :: live)
  | dealloc {s : AlignedArenaAllocator} {live : List (Nat × Nat)} (p n : Nat) :
      Reach b e s live → (p, n) ∈ live →
      Reach b e (DeAllocate s p n) (live.erase (p, n))
  | realloc {s : AlignedArenaAllocator} {live : List (Nat × Nat)}
      (p o n g q : Nat) (s1 : AlignedArenaAllocator) :
      Reach b e s live → (p, o) ∈ live → Fresh b e live g n → cursorWraps s n = false →
      ReAllocate s p o n g = some (q, s1) →
      Reach b e s1 (((q, n) :: live).erase (p, o))
  | reset {s : AlignedArenaAllocator} {live : List (Nat × Nat)} :
      Reach b e s live → Reach b e (reset_pool s) []
  | store {s : AlignedArenaAllocator} {live : List (Nat × Nat)} (p n i v : Nat) :
      Reach b e s live → (p, n) ∈ live → i < n →
      Reach b e { s with mem := storeByte s.mem (p + i) v } live

/-- The free list as it lies in memory: starting at `h`, following the
`m_next` links through the nodes `fl` in order, ends at the null pointer. -/
def IsChain (m : Mem) : Nat → List Nat → Prop
  | h, [] => h = 0
  | h, p :: rest => h = p ∧ p ≠ 0 ∧ IsChain m (readPtr m p) rest

/-- The invariant of the protocol-following runs: `fl` is the free list in
memory; its nodes and the live arena blocks are 8-aligned, lie inside the
buffer and below the cursor; live heap blocks lie outside the buffer; no two
of all these blocks overlap. -/
structure Inv (b e : Nat) (s : AlignedArenaAllocator) (live : List (Nat × Nat))
    (fl : List Nat) : Prop where
  begin_eq : s.m_begin = b
  end_eq : s.m_end = e
  begin_pos : 0 < b
  end_lt : e < 2 ^ 64
  cursor : b ≤ s.m_curr
  cursor_lt : s.m_curr < 2 ^ 64
  chain : IsChain s.mem s.m_freeListHead fl
  nodes : ∀ q ∈ fl, q % 8 = 0 ∧ b ≤ q ∧ q + 64 ≤ e ∧ q + 64 ≤ s.m_curr
  blocks : ∀ x ∈ live, x.1 % 8 = 0 ∧
    ((b ≤ x.1 ∧ x.1 + sizeToAllocate x.2 ≤ e ∧ x.1 + sizeToAllocate x.2 ≤ s.m_curr) ∨
     ((x.1 + x.2 ≤ b ∧ x.1 < b) ∨ e < x.1))
  disjoint : (nodeBlocks fl ++ liveBlocks b e live).Pairwise blocksDisjoint

/-! ## Notions used by the properties of reallocation, recycling and sizes -/

/-- The composition that `ReAllocate` is compared with: `Allocate(nsize)`
followed by `DeAllocate(ptr, osize)`, returning the pointer of the `Allocate`
call; no bytes are copied. -/
def allocateThenDeAllocate (s : AlignedArenaAllocator) (ptr osize nsize g : Nat) :
    Option (Nat × AlignedArenaAllocator) :=
  match Allocate s nsize g with
  | none => none
  | some (q, s1) => some (q, DeAllocate s1 ptr osize)

/-- A size rounded up to the next multiple of `ALIGNMENT`. -/
def roundUp (n : Nat) : Nat :=
  (n + ALIGNMENT - 1) / ALIGNMENT * ALIGNMENT

/-- The calls `DeAllocate(p, size)` for the pairs `(p, size)` of the list, left
to right. -/
def deallocAll (s : AlignedArenaAllocator) : List (Nat × Nat) → AlignedArenaAllocator
  | [] => s
  | x :: rest => deallocAll (DeAllocate s x.1 x.2) rest

/-- The calls `Allocate(size)` for the pairs `(size, g)` of the list, left to
right, `g` being the address the heap would return; the result is the list of
returned pointers and the final state, or `none` when the process exits. -/
def allocAll (s : AlignedArenaAllocator) :
    List (Nat × Nat) → Option (List Nat × AlignedArenaAllocator)
  | [] => some ([], s)
  | x :: rest =>
    match Allocate s x.1 x.2 with
    | none => none
    | some (p, s1) =>
      match allocAll s1 rest with
      | none => none
      | some (ps, s2) => some (p :: ps, s2)

/-- Two pointer-sized words at `p` and `q` do not overlap. -/
def wordsApart (p q : Nat) : Prop :=
  p + 8 ≤ q ∨ q + 8 ≤ p

instance (p q : Nat) : Decidable (wordsApart p q) := by
  unfold wordsApart; infer_instance

/-- The protocol-following continuations without `reset_pool`: from the state
`s0` with live allocations `live0`, the client reaches the state and the live
list of the last two arguments by `Allocate`, `DeAllocate`, `ReAllocate` and
stores into live blocks, under the same rules as `Reach` (in particular no
request wraps the cursor around). -/
inductive Steps (b e : Nat) (s0 : AlignedArenaAllocator) (live0 : List (Nat × Nat)) :
    AlignedArenaAllocator → List (Nat × Nat) → Prop
  | refl : Steps b e s0 live0 s0 live0
  | alloc {s : AlignedArenaAllocator} {live : List (Nat × Nat)}
      (n g p : Nat) (s1 : AlignedArenaAllocator) :
      Steps b e s0 live0 s live → Fresh b e live g n → cursorWraps s n = false →
      Allocate s n g = some (p, s1) →
      Steps b e s0 live0 s1 ((p, n) :: live)
  | dealloc {s : AlignedArenaAllocator} {live : List (Nat × Nat)} (p n : Nat) :
      Steps b e s0 live0 s live → (p, n) ∈ live →
      Steps b e s0 live0 (DeAllocate s p n) (live.erase (p, n))
  | realloc {s : AlignedArenaAllocator} {live : List (Nat × Nat)}
      (p o n g q : Nat) (s1 : AlignedArenaAllocator) :
      Steps b e s0 live0 s live → (p, o) ∈ live → Fresh b e live g n →
      cursorWraps s n = false → ReAllocate s p o n g = some (q, s1) →
      Steps b e s0 live0 s1 (((q, n) :: live).erase (p, o))
  | store {s : AlignedArenaAllocator} {live : List (Nat × Nat)} (p n i v : Nat) :
      Steps b e s0 live0 s live → (p, n) ∈ live → i < n →
      Steps b e s0 live0 { s with mem := storeByte s.mem (p + i) v } live

/-! ## Basic facts about the operations -/

theorem sizeToAllocate_eq_max (n : Nat) : sizeToAllocate n = max n MIN_BLOCK_SIZE := by
  unfold sizeToAllocate MIN_BLOCK_SIZE
  split <;> omega

theorem sizeToAllocate_min_iff (n : Nat) : sizeToAllocate n = MIN_BLOCK_SIZE ↔ n ≤ 64 := by
  unfold sizeToAllocate MIN_BLOCK_SIZE
  split <;> omega

theorem sizeToAllocate_ge (n : Nat) : 64 ≤ sizeToAllocate n ∧ n ≤ sizeToAllocate n := by
  unfold sizeToAllocate MIN_BLOCK_SIZE
  split <;> omega

theorem stdAlign_result {c sp c1 sp1 : Nat}
    (h : stdAlign ALIGNMENT sizeofThing c sp = some (c1, sp1)) :
    c1 % 8 = 0 ∧ c1 < 2 ^ 64 ∧ 8 ≤ sp1 ∧ sp1 ≤ sp := by
  unfold stdAlign ALIGNMENT sizeofThing at h
  simp only at h
  split at h
  · simp at h
  · split at h
    · simp at h
    · simp only [Option.some.injEq, Prod.mk.injEq] at h
      omega

theorem stdAlign_some {c sp c1 sp1 : Nat}
    (h : stdAlign ALIGNMENT sizeofThing c sp = some (c1, sp1)) (hc : c < 2 ^ 64)
    (h0 : c1 ≠ 0) :
    c ≤ c1 ∧ c1 < c + 8 ∧ c1 % 8 = 0 ∧ sp1 + (c1 - c) = sp ∧ 8 ≤ sp1 ∧ c1 < 2 ^ 64 := by
  unfold stdAlign ALIGNMENT sizeofThing at h
  simp only at h
  split at h
  · simp at h
  · split at h
    · simp at h
    · simp only [Option.some.injEq, Prod.mk.injEq] at h
      omega

theorem stdAlign_aligned {c sp : Nat} (hc : c % 8 = 0) (hsp : 8 ≤ sp) (hlt : c < 2 ^ 64) :
    stdAlign ALIGNMENT sizeofThing c sp = some (c, sp) := by
  unfold stdAlign ALIGNMENT sizeofThing
  have h1 : (c + 8 - 1) / 8 * 8 % 2 ^ 64 = c := by omega
  have h2 : (c + 2 ^ 64 - c) % 2 ^ 64 = 0 := by omega
  simp only [h1, h2]
  simp
  omega

theorem Allocate_spec {s : AlignedArenaAllocator} {n g p : Nat} {s1 : AlignedArenaAllocator}
    (h : Allocate s n g = some (p, s1)) :
    (servedBy s n = Path.freeList ∧ sizeToAllocate n = MIN_BLOCK_SIZE ∧ s.m_freeListHead ≠ 0 ∧
        p = s.m_freeListHead ∧
        s1 = { s with m_freeListHead := readPtr s.mem s.m_freeListHead }) ∨
    (∃ c sp, stdAlign ALIGNMENT sizeofThing s.m_curr s.pool_size = some (c, sp) ∧ c ≠ 0 ∧
      ¬ (sizeToAllocate n = MIN_BLOCK_SIZE ∧ s.m_freeListHead ≠ 0) ∧
      ((servedBy s n = Path.bump ∧ (c + sizeToAllocate n) % 2 ^ 64 ≤ s.m_end ∧ p = c ∧
          s1 = { s with m_curr := (c + sizeToAllocate n) % 2 ^ 64, pool_size := sp }) ∨
       (servedBy s n = Path.backing ∧ s.m_end < (c + sizeToAllocate n) % 2 ^ 64 ∧ p = g ∧
          s1 = { s with m_curr := (c + sizeToAllocate n) % 2 ^ 64, pool_size := sp,
                        m_globalAllocator := s.m_globalAllocator ++ [HeapCall.Allocate n g] }))) := by
  unfold Allocate at h
  unfold servedBy
  by_cases hf : sizeToAllocate n = MIN_BLOCK_SIZE ∧ s.m_freeListHead ≠ 0
  · left
    rw [if_pos hf] at h
    rw [if_pos hf]
    simp only [Option.some.injEq, Prod.mk.injEq] at h
    exact ⟨rfl, hf.1, hf.2, h.1.symm, h.2.symm⟩
  · right
    rw [if_neg hf] at h
    rw [if_neg hf]
    cases hal : stdAlign ALIGNMENT sizeofThing s.m_curr s.pool_size with
    | none => rw [hal] at h; simp at h
    | some cs =>
      obtain ⟨c, sp⟩ := cs
      rw [hal] at h
      simp only at h ⊢
      by_cases hc0 : c ≠ 0
      · rw [if_pos hc0] at h
        rw [if_pos hc0]
        refine ⟨c, sp, rfl, hc0, hf, ?_⟩
        by_cases hle : (c + sizeToAllocate n) % 2 ^ 64 ≤ s.m_end
        · left
          rw [if_pos hle] at h
          simp only [Option.some.injEq, Prod.mk.injEq] at h
          exact ⟨by rw [if_pos hle], hle, h.1.symm, h.2.symm⟩
        · right
          rw [if_neg hle] at h
          simp only [Option.some.injEq, Prod.mk.injEq, GlobalAllocator.Allocate] at h
          exact ⟨by rw [if_neg hle], by omega, h.1.symm, h.2.symm⟩
      · rw [if_neg hc0] at h
        simp at h

theorem cursorWraps_false {s : AlignedArenaAllocator} {n c sp : Nat}
    (hw : cursorWraps s n = false)
    (hf : ¬ (sizeToAllocate n = MIN_BLOCK_SIZE ∧ s.m_freeListHead ≠ 0))
    (hal : stdAlign ALIGNMENT sizeofThing s.m_curr s.pool_size = some (c, sp)) :
    c + sizeToAllocate n < 2 ^ 64 := by
  unfold cursorWraps at hw
  rw [if_neg hf, hal] at hw
  simp only [decide_eq_false_iff_not] at hw
  omega

/-- `Allocate` when the cursor addition does not wrap around: the cursor after
the call is the aligned cursor plus the block length. -/
theorem Allocate_nowrap {s : AlignedArenaAllocator} {n g p : Nat} {s1 : AlignedArenaAllocator}
    (h : Allocate s n g = some (p, s1)) (hw : cursorWraps s n = false) :
    (servedBy s n = Path.freeList ∧ sizeToAllocate n = MIN_BLOCK_SIZE ∧ s.m_freeListHead ≠ 0 ∧
        p = s.m_freeListHead ∧
        s1 = { s with m_freeListHead := readPtr s.mem s.m_freeListHead }) ∨
    (∃ c sp, stdAlign ALIGNMENT sizeofThing s.m_curr s.pool_size = some (c, sp) ∧ c ≠ 0 ∧
      c + sizeToAllocate n < 2 ^ 64 ∧
      ¬ (sizeToAllocate n = MIN_BLOCK_SIZE ∧ s.m_freeListHead ≠ 0) ∧
      ((servedBy s n = Path.bump ∧ c + sizeToAllocate n ≤ s.m_end ∧ p = c ∧
          s1 = { s with m_curr := c + sizeToAllocate n, pool_size := sp }) ∨
       (servedBy s n = Path.backing ∧ s.m_end < c + sizeToAllocate n ∧ p = g ∧
          s1 = { s with m_curr := c + sizeToAllocate n, pool_size := sp,
                        m_globalAllocator := s.m_globalAllocator ++ [HeapCall.Allocate n g] }))) := by
  rcases Allocate_spec h with hfl | ⟨c, sp, hal, hc0, hf, hrest⟩
  · exact Or.inl hfl
  · right
    have hlt := cursorWraps_false hw hf hal
    have hmod : (c + sizeToAllocate n) % 2 ^ 64 = c + sizeToAllocate n := Nat.mod_eq_of_lt hlt
    rw [hmod] at hrest
    exact ⟨c, sp, hal, hc0, hlt, hf, hrest⟩

/-! ## Single calls -/

theorem DeAllocate_fields (s : AlignedArenaAllocator) (p n : Nat) :
    (DeAllocate s p n).m_begin = s.m_begin ∧ (DeAllocate s p n).m_end = s.m_end ∧
    (DeAllocate s p n).m_curr = s.m_curr ∧ (DeAllocate s p n).pool_size = s.pool_size := by
  unfold DeAllocate
  split
  · simp only
    split <;> simp
  · simp

theorem Allocate_fields {s : AlignedArenaAllocator} {n g p : Nat} {s1 : AlignedArenaAllocator}
    (h : Allocate s n g = some (p, s1)) :
    s1.m_begin = s.m_begin ∧ s1.m_end = s.m_end ∧ s1.mem = s.mem ∧
      (s.m_curr < 2 ^ 64 → s1.m_curr < 2 ^ 64) := by
  rcases Allocate_spec h with ⟨_, _, _, _, hs⟩ | ⟨c, sp, hal, _, _, ⟨_, _, _, hs⟩ | ⟨_, _, _, hs⟩⟩
  · subst hs; exact ⟨rfl, rfl, rfl, fun h => h⟩
  · subst hs; exact ⟨rfl, rfl, rfl, fun _ => Nat.mod_lt _ (by decide)⟩
  · subst hs; exact ⟨rfl, rfl, rfl, fun _ => Nat.mod_lt _ (by decide)⟩

theorem Allocate_cursor {s : AlignedArenaAllocator} {n g p : Nat} {s1 : AlignedArenaAllocator}
    (h : Allocate s n g = some (p, s1)) (hw : cursorWraps s n = false)
    (hc : s.m_curr < 2 ^ 64) : s.m_curr ≤ s1.m_curr := by
  rcases Allocate_nowrap h hw with ⟨_, _, _, _, hs⟩ |
    ⟨c, sp, hal, hc0, _, _, ⟨_, _, _, hs⟩ | ⟨_, _, _, hs⟩⟩
  · subst hs; exact Nat.le_refl _
  · have := stdAlign_some hal hc hc0
    subst hs; simp only; omega
  · have := stdAlign_some hal hc hc0
    subst hs; simp only; omega

theorem ReAllocate_spec {s : AlignedArenaAllocator} {p o n g q : Nat} {s2 : AlignedArenaAllocator}
    (h : ReAllocate s p o n g = some (q, s2)) :
    ∃ s1, Allocate s n g = some (q, s1) ∧
      s2 = DeAllocate { s1 with mem := memcpy s1.mem q p (min o n) } p o := by
  unfold ReAllocate at h
  cases ha : Allocate s n g with
  | none => rw [ha] at h; simp at h
  | some r =>
    obtain ⟨q1, s1⟩ := r
    rw [ha] at h
    simp only [Option.some.injEq, Prod.mk.injEq] at h
    obtain ⟨h1, h2⟩ := h
    subst h1
    exact ⟨s1, rfl, h2.symm⟩

theorem ReAllocate_fields {s : AlignedArenaAllocator} {p o n g q : Nat} {s2 : AlignedArenaAllocator}
    (h : ReAllocate s p o n g = some (q, s2)) :
    s2.m_begin = s.m_begin ∧ s2.m_end = s.m_end ∧ (s.m_curr < 2 ^ 64 → s2.m_curr < 2 ^ 64) := by
  obtain ⟨s1, ha, hs⟩ := ReAllocate_spec h
  have h1 := Allocate_fields ha
  have h2 := DeAllocate_fields { s1 with mem := memcpy s1.mem q p (min o n) } p o
  subst hs
  simp only at h2
  refine ⟨by omega, by omega, fun hc => ?_⟩
  have := h1.2.2.2 hc
  omega

theorem ReAllocate_cursor {s : AlignedArenaAllocator} {p o n g q : Nat}
    {s2 : AlignedArenaAllocator} (h : ReAllocate s p o n g = some (q, s2))
    (hw : cursorWraps s n = false) (hc : s.m_curr < 2 ^ 64) : s.m_curr ≤ s2.m_curr := by
  obtain ⟨s1, ha, hs⟩ := ReAllocate_spec h
  have h1 := Allocate_cursor ha hw hc
  have h2 := DeAllocate_fields { s1 with mem := memcpy s1.mem q p (min o n) } p o
  subst hs
  simp only at h2
  omega

theorem stepOp_fields {s : AlignedArenaAllocator} {op : Op} {r : Option Nat}
    {s1 : AlignedArenaAllocator} (h : stepOp s op = some (r, s1)) :
    s1.m_begin = s.m_begin ∧ s1.m_end = s.m_end ∧
      (s.m_begin < 2 ^ 64 → s.m_curr < 2 ^ 64 → s1.m_curr < 2 ^ 64) ∧
      (opWraps s op = false → s.m_curr < 2 ^ 64 →
        (s.m_begin ≤ s.m_curr → s1.m_begin ≤ s1.m_curr) ∧
        (op ≠ Op.reset → s.m_curr ≤ s1.m_curr)) := by
  cases op with
  | alloc n g =>
    simp only [stepOp, Option.map_eq_some', Prod.mk.injEq] at h
    obtain ⟨⟨p, s0⟩, ha, -, hs⟩ := h
    simp only at hs; subst hs
    have hf := Allocate_fields ha
    refine ⟨hf.1, hf.2.1, fun _ hc => hf.2.2.2 hc, fun hw hc => ?_⟩
    have := Allocate_cursor ha hw hc
    simp only at this ⊢
    omega
  | dealloc p n =>
    simp only [stepOp, Option.some.injEq, Prod.mk.injEq] at h
    have := DeAllocate_fields s p n
    rw [← h.2]
    refine ⟨this.1, this.2.1, fun _ hc => by omega, fun _ _ => by omega⟩
  | realloc p o n g =>
    simp only [stepOp, Option.map_eq_some', Prod.mk.injEq] at h
    obtain ⟨⟨q, s0⟩, ha, -, hs⟩ := h
    simp only at hs; subst hs
    have hf := ReAllocate_fields ha
    refine ⟨hf.1, hf.2.1, fun _ hc => hf.2.2 hc, fun hw hc => ?_⟩
    have := ReAllocate_cursor ha hw hc
    simp only at this ⊢
    omega
  | reset =>
    simp only [stepOp, Option.some.injEq, Prod.mk.injEq] at h
    rw [← h.2]
    refine ⟨rfl, rfl, fun hb _ => hb, fun _ _ => ⟨fun _ => Nat.le_refl _, fun h => absurd rfl h⟩⟩

theorem runOps_fields (ops : List Op) : ∀ (s s1 : AlignedArenaAllocator),
    runOps s ops = some s1 →
    s1.m_begin = s.m_begin ∧ s1.m_end = s.m_end ∧
      (s.m_begin < 2 ^ 64 → s.m_curr < 2 ^ 64 → s1.m_curr < 2 ^ 64) ∧
      (runWraps s ops = false → s.m_begin < 2 ^ 64 → s.m_curr < 2 ^ 64 →
        s.m_begin ≤ s.m_curr → s1.m_begin ≤ s1.m_curr) := by
  induction ops with
  | nil =>
    intro s s1 h
    simp only [runOps, Option.some.injEq] at h
    subst h
    exact ⟨rfl, rfl, fun _ h => h, fun _ _ _ h => h⟩
  | cons op ops ih =>
    intro s s1 h
    simp only [runOps] at h
    cases hst : stepOp s op with
    | none => rw [hst] at h; simp at h
    | some r =>
      obtain ⟨r0, s0⟩ := r
      rw [hst] at h
      have h1 := stepOp_fields hst
      have h2 := ih s0 s1 h
      refine ⟨by omega, by omega, fun hb hc => h2.2.2.1 (by omega) (h1.2.2.1 hb hc), ?_⟩
      intro hw hb hc hle
      simp only [runWraps, hst, Bool.or_eq_false_iff] at hw
      exact h2.2.2.2 hw.2 (by omega) (h1.2.2.1 hb hc) ((h1.2.2.2 hw.1 hc).1 hle)

/-! ## Cursor movement and routing -/

/-- C8 fails as stated: on a fresh arena over `[4096, 8191]` the call
`Allocate(2 ^ 64 - 1)` is served by the bump path at 4096, because the cursor
addition `4096 + (2 ^ 64 - 1)` wraps around to 4095, which passes the test
`m_curr <= m_end`; the cursor after the call, 4095, is below the cursor
before it, 4096. -/
theorem C8_cursor_wraps_counterexample :
    ∃ s1, Allocate (construct 4096 8191 zeroMem) (2 ^ 64 - 1) 100000 = some (4096, s1) ∧
      servedBy (construct 4096 8191 zeroMem) (2 ^ 64 - 1) = Path.bump ∧
      s1.m_curr = 4095 ∧ s1.m_curr < (construct 4096 8191 zeroMem).m_curr :=
  ⟨{ construct 4096 8191 zeroMem with m_curr := 4095 }, rfl, by decide, rfl, by decide⟩

/-- C8 as amended: in every state with a cursor below `2 ^ 64`, an `Allocate`
or `ReAllocate` call whose cursor addition does not wrap around leaves the
cursor at or above its value before the call; `DeAllocate` and an `Allocate`
served by the free list leave it unchanged; `reset_pool` puts it back to
`begin`, which after an advance is lower. -/
theorem C8_cursor_monotone (s : AlignedArenaAllocator) (p o n g : Nat) :
    (s.m_curr < 2 ^ 64 → cursorWraps s n = false →
      ∀ q s1, Allocate s n g = some (q, s1) → s.m_curr ≤ s1.m_curr) ∧
    (DeAllocate s p o).m_curr = s.m_curr ∧
    (s.m_curr < 2 ^ 64 → cursorWraps s n = false →
      ∀ q s1, ReAllocate s p o n g = some (q, s1) → s.m_curr ≤ s1.m_curr) ∧
    (∀ q s1, Allocate s n g = some (q, s1) → servedBy s n = Path.freeList →
      s1.m_curr = s.m_curr) ∧
    (reset_pool s).m_curr = s.m_begin ∧
    (s.m_begin < s.m_curr → (reset_pool s).m_curr < s.m_curr) := by
  refine ⟨fun hc hw q s1 h => Allocate_cursor h hw hc, (DeAllocate_fields s p o).2.2.1,
    fun hc hw q s1 h => ReAllocate_cursor h hw hc, ?_, rfl, fun h => h⟩
  intro q s1 h hp
  rcases Allocate_spec h with ⟨_, _, _, _, hs⟩ | ⟨c, sp, hal, _, _, ⟨hb, _⟩ | ⟨hb, _⟩⟩
  · subst hs; rfl
  · rw [hp] at hb; cases hb
  · rw [hp] at hb; cases hb

/-- Instance of C8 as amended on a fresh 4096-byte arena: `Allocate(200)` does
not wrap and moves the cursor from 4096 up to 4296. -/
theorem C8_cursor_monotone_witness :
    cursorWraps (construct 4096 8191 zeroMem) 200 = false ∧
    (construct 4096 8191 zeroMem).m_curr ≤
      ({ construct 4096 8191 zeroMem with m_curr := 4296 } : AlignedArenaAllocator).m_curr :=
  ⟨by decide,
   (C8_cursor_monotone (construct 4096 8191 zeroMem) 0 0 200 0).1 (by decide) (by decide) 4096
    { construct 4096 8191 zeroMem with m_curr := 4296 } rfl⟩

/-- C9: `DeAllocate` routes by address range alone.  For `begin ≤ ptr ≤ end`
no call reaches the backing allocator; for a pointer outside the range the only
effect is the call `DeAllocate(ptr, size)` on the backing allocator: cursor,
free list, pool size and memory stay as they were. -/
theorem C9_deallocate_routing (s : AlignedArenaAllocator) (ptr size : Nat) :
    (s.m_begin ≤ ptr ∧ ptr ≤ s.m_end →
      (DeAllocate s ptr size).m_globalAllocator = s.m_globalAllocator) ∧
    (ptr < s.m_begin ∨ s.m_end < ptr →
      DeAllocate s ptr size =
        { s with m_globalAllocator := s.m_globalAllocator ++ [HeapCall.DeAllocate ptr size] }) := by
  constructor
  · intro h
    unfold DeAllocate
    rw [if_pos ⟨h.1, h.2⟩]
    simp only
    split <;> rfl
  · intro h
    unfold DeAllocate
    rw [if_neg (by omega)]
    rfl

/-- Instance of C9: on a fresh arena over `[4096, 8191]` the pointer 4096 is
handled by the arena and the pointer 100000 goes to the backing allocator. -/
theorem C9_deallocate_routing_witness :
    (DeAllocate (construct 4096 8191 zeroMem) 4096 8).m_globalAllocator = [] ∧
    (DeAllocate (construct 4096 8191 zeroMem) 100000 8).m_globalAllocator =
      [HeapCall.DeAllocate 100000 8] :=
  ⟨(C9_deallocate_routing (construct 4096 8191 zeroMem) 4096 8).1 (by decide),
   congrArg AlignedArenaAllocator.m_globalAllocator
    ((C9_deallocate_routing (construct 4096 8191 zeroMem) 100000 8).2 (by decide))⟩

/-- C3 fails as stated: on a fresh arena over the 4096 bytes `[4096, 8191]` a
single `Allocate(5000)` overruns the buffer, falls back to the backing
allocator and leaves the cursor at 9096, above `end + 1 = 8192`. -/
theorem C3_cursor_upper_bound_counterexample :
    ∃ s, runOps (construct 4096 8191 zeroMem) [Op.alloc 5000 100000] = some s ∧
      ¬ (s.m_begin ≤ s.m_curr ∧ s.m_curr ≤ s.m_end + 1) :=
  ⟨{ construct 4096 8191 zeroMem with
      m_curr := 9096, m_globalAllocator := [HeapCall.Allocate 5000 100000] }, rfl, by decide⟩

/-- C3 as amended: in every state reached from construction over a buffer
`begin ≤ end < 2 ^ 64` by calls none of which wraps the cursor addition
around, `begin ≤ curr` holds.  The upper bound `curr ≤ end + 1` holds after
construction and after `reset_pool`, and from a state where it holds it is
kept by `DeAllocate` and by every `Allocate` / `ReAllocate` whose block is
served by the free list or the bump path.  An `Allocate` that overruns the
buffer keeps its advance: afterwards the cursor is above `end`. -/
theorem C3_cursor_bounds (b e : Nat) (m : Mem) (hbe : b ≤ e) (he : e < 2 ^ 64)
    (ops : List Op) (s : AlignedArenaAllocator)
    (hrun : runOps (construct b e m) ops = some s) :
    (runWraps (construct b e m) ops = false → s.m_begin ≤ s.m_curr) ∧
    (construct b e m).m_curr ≤ (construct b e m).m_end + 1 ∧
    (reset_pool s).m_curr ≤ (reset_pool s).m_end + 1 ∧
    (s.m_curr ≤ s.m_end + 1 →
      (∀ p n, (DeAllocate s p n).m_curr ≤ (DeAllocate s p n).m_end + 1) ∧
      (∀ n g q s1, Allocate s n g = some (q, s1) → servedBy s n ≠ Path.backing →
        s1.m_curr ≤ s1.m_end + 1) ∧
      (∀ p o n g q s1, ReAllocate s p o n g = some (q, s1) → servedBy s n ≠ Path.backing →
        s1.m_curr ≤ s1.m_end + 1)) ∧
    (∀ n g q s1, Allocate s n g = some (q, s1) → servedBy s n = Path.backing →
      s1.m_end < s1.m_curr ∧
      (cursorWraps s n = false → s.m_curr + sizeToAllocate n ≤ s1.m_curr)) := by
  have hf := runOps_fields ops (construct b e m) s hrun
  have hb : s.m_begin = b := hf.1
  have he1 : s.m_end = e := hf.2.1
  have hclt : s.m_curr < 2 ^ 64 :=
    hf.2.2.1 (show b < 2 ^ 64 by omega) (show b < 2 ^ 64 by omega)
  have halloc : ∀ n g q s1, Allocate s n g = some (q, s1) → servedBy s n ≠ Path.backing →
      s.m_curr ≤ s.m_end + 1 → s1.m_curr ≤ s1.m_end + 1 := by
    intro n g q s1 h hp hc
    rcases Allocate_spec h with ⟨_, _, _, _, hs⟩ | ⟨c, sp, hal, _, _, ⟨_, hle, _, hs⟩ | ⟨hbk, _⟩⟩
    · subst hs; exact hc
    · subst hs; simp only; omega
    · exact absurd hbk hp
  refine ⟨?_, ?_, ?_, ?_, ?_⟩
  · intro hw
    exact hf.2.2.2 hw (show b < 2 ^ 64 by omega) (show b < 2 ^ 64 by omega) (Nat.le_refl _)
  · show b ≤ e + 1
    omega
  · show s.m_begin ≤ s.m_end + 1
    omega
  · intro hc
    refine ⟨?_, fun n g q s1 h hp => halloc n g q s1 h hp hc, ?_⟩
    · intro p n
      have := DeAllocate_fields s p n
      omega
    · intro p o n g q s2 h hp
      obtain ⟨s1, ha, hs⟩ := ReAllocate_spec h
      have h1 := halloc n g q s1 ha hp hc
      have h2 := DeAllocate_fields { s1 with mem := memcpy s1.mem q p (min o n) } p o
      subst hs
      simp only at h2
      omega
  · intro n g q s1 h hp
    constructor
    · rcases Allocate_spec h with ⟨hfl, _⟩ | ⟨c, sp, hal, _, _, ⟨hbp, _⟩ | ⟨_, hlt, _, hs⟩⟩
      · rw [hp] at hfl; cases hfl
      · rw [hp] at hbp; cases hbp
      · subst hs; exact hlt
    · intro hw
      rcases Allocate_nowrap h hw with ⟨hfl, _⟩ |
        ⟨c, sp, hal, hc0, _, _, ⟨hbp, _⟩ | ⟨_, hlt, _, hs⟩⟩
      · rw [hp] at hfl; cases hfl
      · rw [hp] at hbp; cases hbp
      · have := stdAlign_some hal hclt hc0
        subst hs; simp only; omega

/-- Instance of C3 as amended on a fresh arena over `[4096, 8191]`: after
`Allocate(200)`, which does not wrap, the cursor 4296 is at least `begin`; and
`Allocate(5000)` on the fresh arena is served by the backing allocator and
leaves the cursor at 9096, above `end = 8191`. -/
theorem C3_cursor_bounds_witness :
    ({ construct 4096 8191 zeroMem with m_curr := 4296 } : AlignedArenaAllocator).m_begin ≤
      ({ construct 4096 8191 zeroMem with m_curr := 4296 } : AlignedArenaAllocator).m_curr ∧
    (8191 < 9096 ∧ 4096 + sizeToAllocate 5000 ≤ 9096) :=
  ⟨(C3_cursor_bounds 4096 8191 zeroMem (by decide) (by decide) [Op.alloc 200 0]
      { construct 4096 8191 zeroMem with m_curr := 4296 } rfl).1 (by decide),
   match (C3_cursor_bounds 4096 8191 zeroMem (by decide) (by decide) []
      (construct 4096 8191 zeroMem) rfl).2.2.2.2
      5000 100000 100000
      { construct 4096 8191 zeroMem with
          m_curr := 9096, m_globalAllocator := [HeapCall.Allocate 5000 100000] }
      rfl (by decide) with
   | ⟨h1, h2⟩ => ⟨h1, h2 (by decide)⟩⟩

set_option maxRecDepth 100000 in
/-- C4 fails on the code: `std::align` takes `pool_size` by reference and
lowers it by the padding of every misaligned cursor.  On an arena over the 64
bytes `[4096, 4159]` nine calls `Allocate(65)` return and bring `pool_size`
down to 8; the tenth call finds `std::align` returning `nullptr` and exits.
The same happens on the 4096-byte arena of `main` after 585 such calls. -/
theorem C4_align_fails_after_pool_size_shrinks :
    (∃ s, runOps (construct 4096 4159 zeroMem) (List.replicate 9 (Op.alloc 65 100000)) = some s ∧
      s.pool_size = 8 ∧ servedBy s 65 = Path.exit ∧ Allocate s 65 100000 = none) ∧
    runOps (construct 4096 4159 zeroMem) (List.replicate 10 (Op.alloc 65 100000)) = none ∧
    (runOps (construct 4096 8191 zeroMem) (List.replicate 585 (Op.alloc 65 100000))).isSome = true ∧
    (runOps (construct 4096 8191 zeroMem) (List.replicate 586 (Op.alloc 65 100000))).isNone = true := by
  refine ⟨⟨{ construct 4096 4159 zeroMem with
      m_curr := 4737, pool_size := 8,
      m_globalAllocator := List.replicate 9 (HeapCall.Allocate 65 100000) }, rfl, rfl, rfl, rfl⟩,
    rfl, rfl, rfl⟩

/-! ## Successive small requests on an arena of `k` minimum blocks -/

theorem Allocate_small (s : AlignedArenaAllocator) (n g : Nat)
    (hh : s.m_freeListHead = 0) (hc : s.m_curr % 8 = 0) (hp : 8 ≤ s.pool_size) (hn : n ≤ 64)
    (h0 : 0 < s.m_curr) (hlt : s.m_curr + 64 < 2 ^ 64) :
    (s.m_curr + 64 ≤ s.m_end →
      servedBy s n = Path.bump ∧
      Allocate s n g = some (s.m_curr, { s with m_curr := s.m_curr + 64 })) ∧
    (s.m_end < s.m_curr + 64 →
      servedBy s n = Path.backing ∧
      Allocate s n g = some (g, { s with
        m_curr := s.m_curr + 64,
        m_globalAllocator := s.m_globalAllocator ++ [HeapCall.Allocate n g] })) := by
  have hsz : sizeToAllocate n = 64 := (sizeToAllocate_min_iff n).2 hn
  have hal := stdAlign_aligned hc hp (show s.m_curr < 2 ^ 64 by omega)
  have hne : s.m_curr ≠ 0 := by omega
  have hmod : (s.m_curr + 64) % 2 ^ 64 = s.m_curr + 64 := Nat.mod_eq_of_lt hlt
  unfold servedBy Allocate
  rw [hal]
  simp only [hh, hsz, ne_eq, not_true_eq_false, and_false, if_false, GlobalAllocator.Allocate,
    hne, not_false_eq_true, if_true, hmod]
  constructor
  · intro h
    rw [if_pos h, if_pos h]
    exact ⟨rfl, rfl⟩
  · intro h
    have h2 : ¬ (s.m_curr + 64 ≤ s.m_end) := by omega
    rw [if_neg h2, if_neg h2]
    exact ⟨rfl, rfl⟩

theorem runOps_small_allocs (reqs : List (Nat × Nat)) : ∀ (s : AlignedArenaAllocator),
    s.m_freeListHead = 0 → s.m_curr % 8 = 0 → 8 ≤ s.pool_size → (∀ r ∈ reqs, r.1 ≤ 64) →
    0 < s.m_curr → s.m_curr + 64 * reqs.length < 2 ^ 64 →
    ∃ s1, runOps s (reqs.map fun r => Op.alloc r.1 r.2) = some s1 ∧
      s1.m_freeListHead = 0 ∧ s1.m_curr = s.m_curr + 64 * reqs.length ∧
      s1.pool_size = s.pool_size ∧ s1.m_begin = s.m_begin ∧ s1.m_end = s.m_end := by
  induction reqs with
  | nil => intro s _ _ _ _ _ _; exact ⟨s, rfl, by assumption, by simp, rfl, rfl, rfl⟩
  | cons r rs ih =>
    intro s hh hc hp hsz h0 hlt
    simp only [List.length_cons] at hlt
    have hr : r.1 ≤ 64 := hsz r (List.mem_cons_self _ _)
    have hrs : ∀ x ∈ rs, x.1 ≤ 64 := fun x hx => hsz x (List.mem_cons_of_mem _ hx)
    have hsm := Allocate_small s r.1 r.2 hh hc hp hr h0 (by omega)
    by_cases hfit : s.m_curr + 64 ≤ s.m_end
    · obtain ⟨s1, h1, h2, h3, h4, h5, h6⟩ :=
        ih { s with m_curr := s.m_curr + 64 } hh (by simp only; omega) hp hrs
          (by simp only; omega) (by simp only; omega)
      refine ⟨s1, ?_, h2, ?_, h4, h5, h6⟩
      · simp only [List.map_cons, runOps, stepOp, (hsm.1 hfit).2, Option.map_some']
        exact h1
      · simp only [List.length_cons] at h3 ⊢
        omega
    · obtain ⟨s1, h1, h2, h3, h4, h5, h6⟩ :=
        ih { s with m_curr := s.m_curr + 64,
                    m_globalAllocator := s.m_globalAllocator ++ [HeapCall.Allocate r.1 r.2] }
          hh (by simp only; omega) hp hrs (by simp only; omega) (by simp only; omega)
      refine ⟨s1, ?_, h2, ?_, h4, h5, h6⟩
      · simp only [List.map_cons, runOps, stepOp, (hsm.2 (by omega)).2, Option.map_some']
        exact h1
      · simp only [List.length_cons] at h3 ⊢
        omega

/-- C2, what the code does: on an arena of exactly `k ≥ 1` blocks of 64 bytes
(`end = begin + 64 * k - 1`, `begin` 8-aligned and non-null, the buffer inside
the 64-bit address space), after `j < k` requests of size
at most 64 the next one is served from the arena at `begin + 64 * j` only while
`j + 1 < k`.  The `k`-th request (`j + 1 = k`) overruns the test
`m_curr <= m_end` of line 161 and is handed to the backing allocator. -/
theorem C2_last_block_falls_back (k b : Nat) (m : Mem) (reqs : List (Nat × Nat)) (n g : Nat)
    (hb : b % 8 = 0) (hb0 : 0 < b) (hbuf : b + 64 * k < 2 ^ 64)
    (hlen : reqs.length + 1 ≤ k) (hsz : ∀ r ∈ reqs, r.1 ≤ 64) (hn : n ≤ 64) :
    ∃ s, runOps (construct b (b + 64 * k - 1) m) (reqs.map fun r => Op.alloc r.1 r.2) = some s ∧
      (reqs.length + 1 < k →
        servedBy s n = Path.bump ∧
        ∃ s1, Allocate s n g = some (b + 64 * reqs.length, s1)) ∧
      (reqs.length + 1 = k →
        servedBy s n = Path.backing ∧
        ∃ s1, Allocate s n g = some (g, s1) ∧
          s1.m_globalAllocator = s.m_globalAllocator ++ [HeapCall.Allocate n g]) := by
  obtain ⟨s, h1, h2, h3, h4, h5, h6⟩ :=
    runOps_small_allocs reqs (construct b (b + 64 * k - 1) m) rfl hb
      (by simp only [construct, reset_pool]; omega) hsz hb0
      (show b + 64 * reqs.length < 2 ^ 64 by omega)
  have hcur : s.m_curr = b + 64 * reqs.length := h3
  have hend : s.m_end = b + 64 * k - 1 := h6
  have hpool : 8 ≤ s.pool_size := by
    rw [h4]; simp only [construct, reset_pool]; omega
  have hsm := Allocate_small s n g h2 (by omega) hpool hn (by omega) (by omega)
  refine ⟨s, h1, ?_, ?_⟩
  · intro hlt
    have := hsm.1 (by omega)
    exact ⟨this.1, _, hcur ▸ this.2⟩
  · intro heq
    have := hsm.2 (by omega)
    exact ⟨this.1, _, this.2, rfl⟩

/-- C2 at the spec's own scenario: a 128-byte arena over `[4096, 4223]` and
`Allocate(8)` twice.  The first call returns 4096; the second call returns the
backing allocator's pointer, not the arena address 4160. -/
theorem C2_last_block_falls_back_witness :
    ∃ s, runOps (construct 4096 (4096 + 64 * 2 - 1) zeroMem)
        ([(8, 100000)].map fun r => Op.alloc r.1 r.2) = some s ∧
      (1 + 1 < 2 →
        servedBy s 8 = Path.bump ∧ ∃ s1, Allocate s 8 200000 = some (4096 + 64 * 1, s1)) ∧
      (1 + 1 = 2 →
        servedBy s 8 = Path.backing ∧
        ∃ s1, Allocate s 8 200000 = some (200000, s1) ∧
          s1.m_globalAllocator = s.m_globalAllocator ++ [HeapCall.Allocate 8 200000]) :=
  C2_last_block_falls_back 2 4096 zeroMem [(8, 100000)] 8 200000 (by decide) (by decide)
    (by decide) (by decide) (by decide) (by decide)

/-- C5: on an arena of exactly `k ≥ 1` blocks of 64 bytes with 8-aligned
non-null `begin`, lying in the 64-bit address space with 64 bytes to spare
above it, `k` requests of size at most 64 all return, and the next such request
returns too: it is handed to the backing allocator with the requested size and
its result is the backing allocator's pointer `g`, which lies outside
`[begin, end]` whenever the heap's pointer does. -/
theorem C5_exhaustion_fallback (k b : Nat) (m : Mem) (reqs : List (Nat × Nat)) (n g : Nat)
    (hk : 1 ≤ k) (hb : b % 8 = 0) (hb0 : 0 < b) (hbuf : b + 64 * (k + 1) < 2 ^ 64)
    (hlen : reqs.length = k) (hsz : ∀ r ∈ reqs, r.1 ≤ 64) (hn : n ≤ 64) :
    ∃ s, runOps (construct b (b + 64 * k - 1) m) (reqs.map fun r => Op.alloc r.1 r.2) = some s ∧
      servedBy s n = Path.backing ∧
      ∃ s1, Allocate s n g = some (g, s1) ∧
        s1.m_globalAllocator = s.m_globalAllocator ++ [HeapCall.Allocate n g] ∧
        (g < b ∨ b + 64 * k - 1 < g → g < s1.m_begin ∨ s1.m_end < g) := by
  obtain ⟨s, h1, h2, h3, h4, h5, h6⟩ :=
    runOps_small_allocs reqs (construct b (b + 64 * k - 1) m) rfl hb
      (by simp only [construct, reset_pool]; omega) hsz hb0
      (show b + 64 * reqs.length < 2 ^ 64 by omega)
  have hcur : s.m_curr = b + 64 * reqs.length := h3
  have hend : s.m_end = b + 64 * k - 1 := h6
  have hbeg : s.m_begin = b := h5
  have hpool : 8 ≤ s.pool_size := by
    rw [h4]; simp only [construct, reset_pool]; omega
  have hsm := (Allocate_small s n g h2 (by omega) hpool hn (by omega) (by omega)).2 (by omega)
  refine ⟨s, h1, hsm.1, _, hsm.2, rfl, ?_⟩
  intro hg
  simp only [hbeg, hend]
  exact hg

/-- Instance of C5 with `k = 2`: a 128-byte arena over `[4096, 4223]`; after two
calls `Allocate(8)` the third is served by the backing allocator. -/
theorem C5_exhaustion_fallback_witness :
    ∃ s, runOps (construct 4096 (4096 + 64 * 2 - 1) zeroMem)
        ([(8, 100000), (8, 200000)].map fun r => Op.alloc r.1 r.2) = some s ∧
      servedBy s 8 = Path.backing ∧
      ∃ s1, Allocate s 8 300000 = some (300000, s1) ∧
        s1.m_globalAllocator = s.m_globalAllocator ++ [HeapCall.Allocate 8 300000] ∧
        (300000 < 4096 ∨ 4096 + 64 * 2 - 1 < 300000 → 300000 < s1.m_begin ∨ s1.m_end < 300000) :=
  C5_exhaustion_fallback 2 4096 zeroMem [(8, 100000), (8, 200000)] 8 300000 (by decide)
    (by decide) (by decide) (by decide) rfl (by decide) (by decide)

/-! ## Blocks of the bump path -/

theorem Allocate_bump_mod {s : AlignedArenaAllocator} {n g p : Nat} {s1 : AlignedArenaAllocator}
    (h : Allocate s n g = some (p, s1)) (hb : servedBy s n = Path.bump) :
    s1.m_curr = (p + max n MIN_BLOCK_SIZE) % 2 ^ 64 ∧ s1.m_curr ≤ s.m_end ∧ p % 8 = 0 ∧
      p ≠ 0 ∧ s1.m_end = s.m_end := by
  rcases Allocate_spec h with ⟨hfl, _⟩ | ⟨c, sp, hal, hc0, _, ⟨_, hle, hp, hs⟩ | ⟨hbk, _⟩⟩
  · rw [hb] at hfl; cases hfl
  · have := stdAlign_result hal
    rw [← sizeToAllocate_eq_max]
    subst hs hp
    exact ⟨rfl, hle, this.1, hc0, rfl⟩
  · rw [hb] at hbk; cases hbk

theorem Allocate_bump {s : AlignedArenaAllocator} {n g p : Nat} {s1 : AlignedArenaAllocator}
    (h : Allocate s n g = some (p, s1)) (hb : servedBy s n = Path.bump)
    (hw : cursorWraps s n = false) (hc : s.m_curr < 2 ^ 64) :
    s.m_curr ≤ p ∧ p + max n MIN_BLOCK_SIZE = s1.m_curr ∧ s1.m_curr ≤ s.m_end ∧ p % 8 = 0 := by
  rcases Allocate_nowrap h hw with ⟨hfl, _⟩ |
    ⟨c, sp, hal, hc0, _, _, ⟨_, hle, hp, hs⟩ | ⟨hbk, _⟩⟩
  · rw [hb] at hfl; cases hfl
  · have := stdAlign_some hal hc hc0
    rw [← sizeToAllocate_eq_max]
    subst hs hp
    exact ⟨this.1, rfl, hle, this.2.2.1⟩
  · rw [hb] at hbk; cases hbk

theorem bumpBlock_bounds {s : AlignedArenaAllocator} {op : Op} {r : Option Nat}
    {s1 : AlignedArenaAllocator} (h : stepOp s op = some (r, s1))
    (hw : opWraps s op = false) (hc : s.m_curr < 2 ^ 64) :
    (bumpBlock s op).Pairwise (fun x y => x.1 + x.2 ≤ y.1) ∧
    ∀ x ∈ bumpBlock s op, s.m_curr ≤ x.1 ∧ x.1 + x.2 ≤ s1.m_curr ∧ x.1 + x.2 ≤ s.m_end := by
  cases op with
  | alloc n g =>
    simp only [stepOp, Option.map_eq_some', Prod.mk.injEq] at h
    obtain ⟨⟨p, s0⟩, ha, -, hs⟩ := h
    simp only at hs; subst hs
    simp only [bumpBlock, ha]
    by_cases hb : servedBy s n = Path.bump
    · have := Allocate_bump ha hb hw hc
      simp only [hb, if_true, List.pairwise_singleton, List.mem_singleton, true_and]
      intro x hx; subst hx; simp only; omega
    · simp [hb]
  | dealloc p n => simp [bumpBlock]
  | realloc p o n g =>
    simp only [stepOp, Option.map_eq_some', Prod.mk.injEq] at h
    obtain ⟨⟨q, s0⟩, ha, -, hs⟩ := h
    simp only at hs; subst hs
    obtain ⟨s2, ha2, hs2⟩ := ReAllocate_spec ha
    have hd := DeAllocate_fields { s2 with mem := memcpy s2.mem q p (min o n) } p o
    simp only [bumpBlock, ha2]
    by_cases hb : servedBy s n = Path.bump
    · have := Allocate_bump ha2 hb hw hc
      simp only [hb, if_true, List.pairwise_singleton, List.mem_singleton, true_and]
      intro x hx; subst hx; subst hs2; simp only at hd ⊢; omega
    · simp [hb]
  | reset => simp [bumpBlock]

theorem bumpBlocks_ordered (ops : List Op) : ∀ (s : AlignedArenaAllocator), Op.reset ∉ ops →
    runWraps s ops = false → s.m_begin < 2 ^ 64 → s.m_curr < 2 ^ 64 →
    (bumpBlocks s ops).Pairwise (fun x y => x.1 + x.2 ≤ y.1) ∧
    ∀ x ∈ bumpBlocks s ops, s.m_curr ≤ x.1 ∧ x.1 + x.2 ≤ s.m_end := by
  induction ops with
  | nil => intro s _ _ _ _; simp [bumpBlocks]
  | cons op ops ih =>
    intro s hr hw hbl hc
    have hr1 : op ≠ Op.reset := fun h => hr (h ▸ List.mem_cons_self _ _)
    have hr2 : Op.reset ∉ ops := fun h => hr (List.mem_cons_of_mem _ h)
    simp only [bumpBlocks]
    cases hst : stepOp s op with
    | none => simp
    | some r =>
      obtain ⟨r0, s1⟩ := r
      simp only
      simp only [runWraps, hst, Bool.or_eq_false_iff] at hw
      have hb := bumpBlock_bounds hst hw.1 hc
      have hf := stepOp_fields hst
      have hi := ih s1 hr2 hw.2 (by omega) (hf.2.2.1 hbl hc)
      have hmono := (hf.2.2.2 hw.1 hc).2 hr1
      refine ⟨List.pairwise_append.2 ⟨hb.1, hi.1, ?_⟩, ?_⟩
      · intro x hx y hy
        have := hb.2 x hx
        have := hi.2 y hy
        omega
      · intro x hx
        rcases List.mem_append.1 hx with hx | hx
        · have := hb.2 x hx
          omega
        · have := hi.2 x hx
          omega

/-- C7 fails as stated: on a fresh arena over `[4096, 8191]` the call
`Allocate(2 ^ 64 - 1)` is served by the bump path at 4096 (the cursor addition
wraps around to 4095), so its block `[4096, 4096 + 2 ^ 64 - 1)` does not lie
inside the buffer; the next `Allocate(8)` is served by the bump path at 4096
again, inside the first block. -/
theorem C7_wrapped_block_counterexample :
    bumpBlocks (construct 4096 8191 zeroMem) [Op.alloc (2 ^ 64 - 1) 100000, Op.alloc 8 100000]
      = [(4096, 2 ^ 64 - 1), (4096, 64)] ∧
    ¬ blocksDisjoint (4096, 2 ^ 64 - 1) (4096, 64) ∧
    ¬ (4096 + (2 ^ 64 - 1) ≤ (construct 4096 8191 zeroMem).m_end + 1) := by
  refine ⟨by decide, by decide, by decide⟩

/-- C7 as amended: along every sequence of `Allocate` / `DeAllocate` /
`ReAllocate` calls (no `reset_pool`) none of which wraps the cursor addition
around, started in a state with `begin ≤ curr < 2 ^ 64`, the blocks
`[p, p + max(n, 64))` handed out by the bump path are pairwise disjoint and
each lies inside the buffer `[begin, end]`. -/
theorem C7_bump_blocks_disjoint (s : AlignedArenaAllocator) (ops : List Op)
    (hcur : s.m_begin ≤ s.m_curr) (hclt : s.m_curr < 2 ^ 64) (hreset : Op.reset ∉ ops)
    (hwrap : runWraps s ops = false) :
    (bumpBlocks s ops).Pairwise blocksDisjoint ∧
    ∀ x ∈ bumpBlocks s ops, s.m_begin ≤ x.1 ∧ x.1 + x.2 ≤ s.m_end + 1 := by
  have h := bumpBlocks_ordered ops s hreset hwrap (by omega) hclt
  refine ⟨h.1.imp (fun hxy => Or.inl hxy), fun x hx => ?_⟩
  have := h.2 x hx
  omega

/-- Instance of C7 as amended: on a fresh arena over `[4096, 8191]` the calls
`Allocate(8)`, `Allocate(200)`, `Allocate(65)`, none of which wraps, hand out
the blocks `(4096, 64)`, `(4160, 200)` and `(4360, 65)`. -/
theorem C7_bump_blocks_disjoint_witness :
    bumpBlocks (construct 4096 8191 zeroMem) [Op.alloc 8 0, Op.alloc 200 0, Op.alloc 65 0]
      = [(4096, 64), (4160, 200), (4360, 65)] ∧
    (bumpBlocks (construct 4096 8191 zeroMem)
      [Op.alloc 8 0, Op.alloc 200 0, Op.alloc 65 0]).Pairwise blocksDisjoint :=
  ⟨by decide, (C7_bump_blocks_disjoint (construct 4096 8191 zeroMem)
    [Op.alloc 8 0, Op.alloc 200 0, Op.alloc 65 0] (by decide) (by decide) (by decide)
    (by decide)).1⟩

/-! ## Memory lemmas -/

theorem readPtr_writePtr (m : Mem) (p v : Nat) (hv : v < 2 ^ 64) :
    readPtr (writePtr m p v) p = v := by
  simp only [readPtr, readByte, writePtr]
  simp
  omega

theorem readPtr_congr (m m1 : Mem) (p : Nat) (h : ∀ i, i < 8 → m1 (p + i) = m (p + i)) :
    readPtr m1 p = readPtr m p := by
  simp only [readPtr, readByte]
  rw [h 1 (by omega), h 2 (by omega), h 3 (by omega), h 4 (by omega), h 5 (by omega),
    h 6 (by omega), h 7 (by omega)]
  have h0 := h 0 (by omega)
  simp only [Nat.add_zero] at h0
  rw [h0]

theorem readPtr_frame (m m1 : Mem) (q lo len : Nat)
    (hm : ∀ a, ¬ (lo ≤ a ∧ a < lo + len) → m1 a = m a)
    (hd : q + 8 ≤ lo ∨ lo + len ≤ q) : readPtr m1 q = readPtr m q := by
  apply readPtr_congr
  intro i hi
  apply hm
  omega

/-! ## The free list in memory -/

theorem blocksDisjoint_symm {x y : Nat × Nat} (h : blocksDisjoint x y) : blocksDisjoint y x :=
  Or.symm h

theorem IsChain_head {m : Mem} {h : Nat} {fl : List Nat} (hc : IsChain m h fl) :
    h = 0 ∨ h ∈ fl := by
  cases fl with
  | nil => exact Or.inl hc
  | cons p rest => exact Or.inr (hc.1 ▸ List.mem_cons_self _ _)

theorem IsChain_pop {m : Mem} {h : Nat} {fl : List Nat} (hc : IsChain m h fl) (hh : h ≠ 0) :
    ∃ rest, fl = h :: rest ∧ IsChain m (readPtr m h) rest := by
  cases fl with
  | nil => exact absurd hc hh
  | cons p rest =>
    obtain ⟨h1, _, h3⟩ := hc
    subst h1
    exact ⟨rest, rfl, h3⟩

theorem IsChain_frame {m m1 : Mem} : ∀ (fl : List Nat) (h : Nat), IsChain m h fl →
    (∀ q ∈ fl, readPtr m1 q = readPtr m q) → IsChain m1 h fl := by
  intro fl
  induction fl with
  | nil => intro h hc _; exact hc
  | cons p rest ih =>
    intro h hc hq
    obtain ⟨h1, h2, h3⟩ := hc
    refine ⟨h1, h2, ?_⟩
    rw [hq p (List.mem_cons_self _ _)]
    exact ih _ h3 (fun q hq1 => hq q (List.mem_cons_of_mem _ hq1))

theorem blockLen_arena {b e p n : Nat} (h1 : b ≤ p) (h2 : p ≤ e) :
    blockLen b e p n = sizeToAllocate n := by
  unfold blockLen; rw [if_pos ⟨h1, h2⟩]

theorem blockLen_heap {b e p n : Nat} (h : p < b ∨ e < p) : blockLen b e p n = n := by
  unfold blockLen; rw [if_neg (by omega)]

theorem blockLen_ge (b e p n : Nat) : n ≤ blockLen b e p n := by
  unfold blockLen
  have := sizeToAllocate_ge n
  split <;> omega

theorem mem_nodeBlocks {fl : List Nat} {x : Nat × Nat} (h : x ∈ nodeBlocks fl) :
    ∃ q ∈ fl, x = (q, 64) := by
  simp only [nodeBlocks, List.mem_map] at h
  obtain ⟨q, hq, hx⟩ := h
  exact ⟨q, hq, hx.symm⟩

theorem mem_liveBlocks {b e : Nat} {live : List (Nat × Nat)} {x : Nat × Nat}
    (h : x ∈ liveBlocks b e live) : ∃ y ∈ live, x = (y.1, blockLen b e y.1 y.2) := by
  simp only [liveBlocks, List.mem_map] at h
  obtain ⟨y, hy, hx⟩ := h
  exact ⟨y, hy, hx.symm⟩

theorem pairwise_add_live {b e : Nat} {fl : List Nat} {live : List (Nat × Nat)} {p n : Nat}
    (hrest : (nodeBlocks fl ++ liveBlocks b e live).Pairwise blocksDisjoint)
    (hn : ∀ q ∈ fl, blocksDisjoint (p, blockLen b e p n) (q, 64))
    (hl : ∀ x ∈ live, blocksDisjoint (p, blockLen b e p n) (x.1, blockLen b e x.1 x.2)) :
    (nodeBlocks fl ++ liveBlocks b e ((p, n) :: live)).Pairwise blocksDisjoint := by
  have hp : (nodeBlocks fl ++ liveBlocks b e ((p, n) :: live)).Perm
      ((p, blockLen b e p n) :: (nodeBlocks fl ++ liveBlocks b e live)) := by
    simp only [liveBlocks, List.map_cons]
    exact List.perm_middle
  refine (List.Perm.pairwise_iff (fun h => blocksDisjoint_symm h) hp).2 ?_
  refine List.pairwise_cons.2 ⟨?_, hrest⟩
  intro a ha
  rcases List.mem_append.1 ha with ha | ha
  · obtain ⟨q, hq, rfl⟩ := mem_nodeBlocks ha
    exact hn q hq
  · obtain ⟨y, hy, rfl⟩ := mem_liveBlocks ha
    exact hl y hy

theorem pairwise_node_block {b e : Nat} {fl : List Nat} {live : List (Nat × Nat)}
    (h : (nodeBlocks fl ++ liveBlocks b e live).Pairwise blocksDisjoint)
    {q : Nat} (hq : q ∈ fl) {x : Nat × Nat} (hx : x ∈ live) :
    blocksDisjoint (q, 64) (x.1, blockLen b e x.1 x.2) := by
  have h3 := (List.pairwise_append.1 h).2.2
  apply h3
  · simp only [nodeBlocks, List.mem_map]; exact ⟨q, hq, rfl⟩
  · simp only [liveBlocks, List.mem_map]; exact ⟨x, hx, rfl⟩

/-! ## The invariant is kept by every protocol step -/

theorem MIN_BLOCK_SIZE_eq : MIN_BLOCK_SIZE = 64 := rfl

theorem perm_cons_erase_live {x : Nat × Nat} {l : List (Nat × Nat)} (h : x ∈ l) :
    l.Perm (x :: l.erase x) := by
  obtain ⟨l1, l2, _, e1, e2⟩ := List.exists_erase_eq h
  rw [e2]
  conv => lhs; rw [e1]
  exact List.perm_middle

theorem Inv_init (b e : Nat) (m : Mem) (hb : 0 < b) (hbe : b ≤ e) (he : e < 2 ^ 64) :
    Inv b e (construct b e m) [] [] where
  begin_eq := rfl
  end_eq := rfl
  begin_pos := hb
  end_lt := he
  cursor := Nat.le_refl _
  cursor_lt := Nat.lt_of_le_of_lt hbe he
  chain := rfl
  nodes := fun _ hq => absurd hq (List.not_mem_nil _)
  blocks := fun _ hx => absurd hx (List.not_mem_nil _)
  disjoint := List.Pairwise.nil

theorem Inv_reset {b e : Nat} {s : AlignedArenaAllocator} {live : List (Nat × Nat)}
    {fl : List Nat} (h : Inv b e s live fl) : Inv b e (reset_pool s) [] [] where
  begin_eq := h.begin_eq
  end_eq := h.end_eq
  begin_pos := h.begin_pos
  end_lt := h.end_lt
  cursor := by show b ≤ s.m_begin; rw [h.begin_eq]
  cursor_lt := by
    show s.m_begin < 2 ^ 64
    have h1 := h.cursor
    have h2 := h.cursor_lt
    rw [h.begin_eq]
    omega
  chain := rfl
  nodes := fun _ hq => absurd hq (List.not_mem_nil _)
  blocks := fun _ hx => absurd hx (List.not_mem_nil _)
  disjoint := List.Pairwise.nil

theorem Inv_alloc {b e : Nat} {s : AlignedArenaAllocator} {live : List (Nat × Nat)}
    {fl : List Nat} {n g p : Nat} {s1 : AlignedArenaAllocator}
    (h : Inv b e s live fl) (hf : servedBy s n = Path.backing → Fresh b e live g n)
    (hw : cursorWraps s n = false) (ha : Allocate s n g = some (p, s1)) :
    ∃ fl1, Inv b e s1 ((p, n) :: live) fl1 := by
  have hsz := sizeToAllocate_ge n
  have hclt := h.cursor_lt
  rcases Allocate_nowrap ha hw with ⟨_, hmin, hne, hp, hs⟩ |
    ⟨c, sp, hal, hc0, hnw, _, ⟨_, hle, hp, hs⟩ | ⟨hbk, hlt, hp, hs⟩⟩
  · -- free-list path
    obtain ⟨rest, hfl, hrest⟩ := IsChain_pop h.chain hne
    subst hp
    have hnode := h.nodes s.m_freeListHead (by rw [hfl]; exact List.mem_cons_self _ _)
    have hlen : blockLen b e s.m_freeListHead n = 64 := by
      rw [blockLen_arena hnode.2.1 (by omega), hmin]; rfl
    refine ⟨rest, ?_⟩
    subst hs
    refine ⟨h.begin_eq, h.end_eq, h.begin_pos, h.end_lt, h.cursor, h.cursor_lt, hrest,
      ?_, ?_, ?_⟩
    · intro q hq
      exact h.nodes q (by rw [hfl]; exact List.mem_cons_of_mem _ hq)
    · intro x hx
      rcases List.mem_cons.1 hx with hx | hx
      · subst hx
        refine ⟨hnode.1, Or.inl ?_⟩
        simp only [hmin, MIN_BLOCK_SIZE]
        omega
      · exact h.blocks x hx
    · have hd := h.disjoint
      rw [hfl] at hd
      have hp2 : (nodeBlocks rest ++ liveBlocks b e ((s.m_freeListHead, n) :: live)).Perm
          (nodeBlocks (s.m_freeListHead :: rest) ++ liveBlocks b e live) := by
        simp only [liveBlocks, nodeBlocks, List.map_cons, hlen, List.cons_append,
          MIN_BLOCK_SIZE_eq]
        exact List.perm_middle
      exact (List.Perm.pairwise_iff (fun h => blocksDisjoint_symm h) hp2).2 hd
  · -- bump path
    have hc := stdAlign_some hal hclt hc0
    have hcur := h.cursor
    have hbeg := h.begin_eq
    have hend := h.end_eq
    have hlen : blockLen b e p n = sizeToAllocate n := blockLen_arena (by omega) (by omega)
    refine ⟨fl, ?_⟩
    subst hs
    refine ⟨h.begin_eq, h.end_eq, h.begin_pos, h.end_lt, ?_, hnw, h.chain, ?_, ?_, ?_⟩
    · show b ≤ c + sizeToAllocate n
      omega
    · intro q hq
      have := h.nodes q hq
      show q % 8 = 0 ∧ b ≤ q ∧ q + 64 ≤ e ∧ q + 64 ≤ c + sizeToAllocate n
      omega
    · intro x hx
      show x.1 % 8 = 0 ∧ ((b ≤ x.1 ∧ x.1 + sizeToAllocate x.2 ≤ e ∧
        x.1 + sizeToAllocate x.2 ≤ c + sizeToAllocate n) ∨ ((x.1 + x.2 ≤ b ∧ x.1 < b) ∨ e < x.1))
      rcases List.mem_cons.1 hx with hx | hx
      · subst hx
        simp only
        omega
      · have := h.blocks x hx
        omega
    · apply pairwise_add_live h.disjoint
      · intro q hq
        have := h.nodes q hq
        rw [hlen]
        unfold blocksDisjoint
        simp only
        omega
      · intro x hx
        have hx1 := h.blocks x hx
        rw [hlen]
        unfold blocksDisjoint
        simp only
        rcases hx1.2 with hx2 | hx2
        · rw [blockLen_arena (by omega) (by omega)]
          omega
        · rw [blockLen_heap (by omega)]
          omega
  · -- fallback to the backing allocator
    have hc := stdAlign_some hal hclt hc0
    have hcur := h.cursor
    obtain ⟨hg1, hg2, hg3⟩ := hf hbk
    have hlen : blockLen b e p n = n := blockLen_heap (by omega)
    refine ⟨fl, ?_⟩
    subst hs
    refine ⟨h.begin_eq, h.end_eq, h.begin_pos, h.end_lt, ?_, hnw, h.chain, ?_, ?_, ?_⟩
    · show b ≤ c + sizeToAllocate n
      omega
    · intro q hq
      have := h.nodes q hq
      show q % 8 = 0 ∧ b ≤ q ∧ q + 64 ≤ e ∧ q + 64 ≤ c + sizeToAllocate n
      omega
    · intro x hx
      show x.1 % 8 = 0 ∧ ((b ≤ x.1 ∧ x.1 + sizeToAllocate x.2 ≤ e ∧
        x.1 + sizeToAllocate x.2 ≤ c + sizeToAllocate n) ∨ ((x.1 + x.2 ≤ b ∧ x.1 < b) ∨ e < x.1))
      rcases List.mem_cons.1 hx with hx | hx
      · subst hx
        simp only
        omega
      · have := h.blocks x hx
        omega
    · apply pairwise_add_live h.disjoint
      · intro q hq
        have := h.nodes q hq
        rw [hlen]
        unfold blocksDisjoint
        simp only
        omega
      · intro x hx
        rw [hlen, hp]
        exact hg3 x hx

theorem Inv_write {b e : Nat} {s : AlignedArenaAllocator} {live : List (Nat × Nat)}
    {fl : List Nat} (h : Inv b e s live fl) {x : Nat × Nat} (hx : x ∈ live) (m1 : Mem)
    (hm : ∀ a, ¬ (x.1 ≤ a ∧ a < x.1 + x.2) → m1 a = s.mem a) :
    Inv b e { s with mem := m1 } live fl := by
  refine ⟨h.begin_eq, h.end_eq, h.begin_pos, h.end_lt, h.cursor, h.cursor_lt, ?_, h.nodes,
    h.blocks, h.disjoint⟩
  apply IsChain_frame fl _ h.chain
  intro q hq
  have hd := pairwise_node_block h.disjoint hq hx
  have hge := blockLen_ge b e x.1 x.2
  unfold blocksDisjoint at hd
  simp only at hd
  apply readPtr_frame _ _ q x.1 x.2 hm
  omega

theorem Inv_dealloc {b e : Nat} {s : AlignedArenaAllocator} {live : List (Nat × Nat)}
    {fl : List Nat} (h : Inv b e s live fl) {p n : Nat} (hx : (p, n) ∈ live) :
    ∃ fl1, Inv b e (DeAllocate s p n) (live.erase (p, n)) fl1 := by
  have hblk := h.blocks (p, n) hx
  have hsub : ∀ y ∈ live.erase (p, n), y ∈ live := fun y hy => List.mem_of_mem_erase hy
  have hsubl : (nodeBlocks fl ++ liveBlocks b e (live.erase (p, n))).Pairwise blocksDisjoint := by
    refine List.Pairwise.sublist ?_ h.disjoint
    exact List.Sublist.append_left ((List.erase_sublist _ _).map _) _
  unfold DeAllocate
  by_cases hin : p ≥ s.m_begin ∧ p ≤ s.m_end
  · rw [if_pos hin]
    simp only
    by_cases hmin : sizeToAllocate n = MIN_BLOCK_SIZE
    · rw [if_pos hmin]
      have hbeg := h.begin_eq
      have hend := h.end_eq
      have hpos := h.begin_pos
      have harena : b ≤ p ∧ p + 64 ≤ e ∧ p + 64 ≤ s.m_curr ∧ p % 8 = 0 := by
        have : sizeToAllocate n = 64 := hmin
        simp only at hblk
        omega
      have hlen : blockLen b e p n = 64 := by
        rw [blockLen_arena (by omega) (by omega), hmin]; rfl
      have hhead : s.m_freeListHead < 2 ^ 64 := by
        rcases IsChain_head h.chain with h0 | h0
        · rw [h0]; decide
        · have := h.nodes _ h0
          have := h.end_lt
          omega
      refine ⟨p :: fl, h.begin_eq, h.end_eq, h.begin_pos, h.end_lt, h.cursor, h.cursor_lt,
        ?_, ?_, ?_, ?_⟩
      · refine ⟨rfl, by omega, ?_⟩
        show IsChain (writePtr s.mem p s.m_freeListHead)
          (readPtr (writePtr s.mem p s.m_freeListHead) p) fl
        rw [readPtr_writePtr _ _ _ hhead]
        apply IsChain_frame fl _ h.chain
        intro q hq
        have hd := pairwise_node_block h.disjoint hq hx
        unfold blocksDisjoint at hd
        simp only [hlen] at hd
        apply readPtr_frame _ _ q p 8
        · intro a ha
          unfold writePtr
          rw [if_neg ha]
        · omega
      · intro q hq
        rcases List.mem_cons.1 hq with hq | hq
        · subst hq
          show q % 8 = 0 ∧ b ≤ q ∧ q + 64 ≤ e ∧ q + 64 ≤ s.m_curr
          omega
        · exact h.nodes q hq
      · intro y hy
        exact h.blocks y (hsub y hy)
      · have hp1 : (liveBlocks b e live).Perm ((p, 64) :: liveBlocks b e (live.erase (p, n))) := by
          have := (perm_cons_erase_live hx).map (fun x => (x.1, blockLen b e x.1 x.2))
          simp only [List.map_cons, hlen] at this
          unfold liveBlocks
          exact this
        have hp2 : (nodeBlocks fl ++ liveBlocks b e live).Perm
            (nodeBlocks (p :: fl) ++ liveBlocks b e (live.erase (p, n))) := by
          refine (List.Perm.append_left _ hp1).trans ?_
          simp only [nodeBlocks, List.map_cons, List.cons_append, MIN_BLOCK_SIZE_eq]
          exact List.perm_middle
        exact (List.Perm.pairwise_iff (fun h => blocksDisjoint_symm h) hp2).1 h.disjoint
    · rw [if_neg hmin]
      exact ⟨fl, h.begin_eq, h.end_eq, h.begin_pos, h.end_lt, h.cursor, h.cursor_lt, h.chain,
        h.nodes, fun y hy => h.blocks y (hsub y hy), hsubl⟩
  · rw [if_neg hin]
    exact ⟨fl, h.begin_eq, h.end_eq, h.begin_pos, h.end_lt, h.cursor, h.cursor_lt, h.chain,
      h.nodes, fun y hy => h.blocks y (hsub y hy), hsubl⟩

theorem Inv_memcpy {b e : Nat} {s : AlignedArenaAllocator} {live : List (Nat × Nat)}
    {fl : List Nat} {q n : Nat} (h : Inv b e s ((q, n) :: live) fl) (src k : Nat) (hk : k ≤ n) :
    Inv b e { s with mem := memcpy s.mem q src k } ((q, n) :: live) fl := by
  apply Inv_write h (List.mem_cons_self _ _)
  intro a ha
  unfold memcpy
  simp only at ha
  rw [if_neg (by omega)]

theorem Reach_Inv {b e : Nat} {s : AlignedArenaAllocator} {live : List (Nat × Nat)}
    (h : Reach b e s live) : ∃ fl, Inv b e s live fl := by
  induction h with
  | init m hb hbe he => exact ⟨[], Inv_init b e m hb hbe he⟩
  | alloc n g p s1 _ hf hw ha ih =>
    obtain ⟨fl, hi⟩ := ih
    exact Inv_alloc hi (fun _ => hf) hw ha
  | dealloc p n _ hx ih =>
    obtain ⟨fl, hi⟩ := ih
    exact Inv_dealloc hi hx
  | realloc p o n g q s1 _ hx hf hw hr ih =>
    obtain ⟨fl, hi⟩ := ih
    obtain ⟨s0, ha, hs⟩ := ReAllocate_spec hr
    obtain ⟨fl1, hi1⟩ := Inv_alloc hi (fun _ => hf) hw ha
    have hi2 := Inv_memcpy hi1 p (min o n) (Nat.min_le_right _ _)
    subst hs
    exact Inv_dealloc hi2 (List.mem_cons_of_mem _ hx)
  | reset _ ih =>
    obtain ⟨fl, hi⟩ := ih
    exact ⟨[], Inv_reset hi⟩
  | store p n i v _ hx hi ih =>
    obtain ⟨fl, hinv⟩ := ih
    refine ⟨fl, Inv_write hinv hx _ ?_⟩
    intro a ha
    unfold storeByte
    simp only at ha
    rw [if_neg (by omega)]

theorem Allocate_arena {b e : Nat} {s : AlignedArenaAllocator} {live : List (Nat × Nat)}
    {fl : List Nat} {n g p : Nat} {s1 : AlignedArenaAllocator}
    (h : Inv b e s live fl) (ha : Allocate s n g = some (p, s1))
    (hw : cursorWraps s n = false) (hpath : servedBy s n ≠ Path.backing) :
    p % 8 = 0 ∧ b ≤ p ∧ p + sizeToAllocate n ≤ e := by
  rcases Allocate_nowrap ha hw with ⟨_, hmin, hne, hp, hs⟩ |
    ⟨c, sp, hal, hc0, _, _, ⟨_, hle, hp, hs⟩ | ⟨hbk, _⟩⟩
  · obtain ⟨rest, hfl, _⟩ := IsChain_pop h.chain hne
    have := h.nodes s.m_freeListHead (by rw [hfl]; exact List.mem_cons_self _ _)
    have h64 : sizeToAllocate n = 64 := hmin
    omega
  · have := stdAlign_some hal h.cursor_lt hc0
    have := h.cursor
    have := h.end_eq
    omega
  · exact absurd hbk hpath

theorem Allocate_aligned {b e : Nat} {s : AlignedArenaAllocator} {live : List (Nat × Nat)}
    {fl : List Nat} {n g p : Nat} {s1 : AlignedArenaAllocator}
    (h : Inv b e s live fl) (ha : Allocate s n g = some (p, s1))
    (hpath : servedBy s n ≠ Path.backing) : p % 8 = 0 := by
  rcases Allocate_spec ha with ⟨_, hmin, hne, hp, hs⟩ |
    ⟨c, sp, hal, hc0, _, ⟨_, hle, hp, hs⟩ | ⟨hbk, _⟩⟩
  · obtain ⟨rest, hfl, _⟩ := IsChain_pop h.chain hne
    have := h.nodes s.m_freeListHead (by rw [hfl]; exact List.mem_cons_self _ _)
    omega
  · have := stdAlign_result hal
    omega
  · exact absurd hbk hpath

/-! ## Alignment, recycling and reallocation for protocol-following clients -/

/-- C1 fails as stated.  On the arena over `[4096, 8191]`, with the byte 1
stored at 4160: `Allocate(8)` returns 4096 and `Allocate(8)` returns 4160;
`DeAllocate(4096, 8)` puts 4096 on the free list; `Allocate(2 ^ 64 - 128)` is
served by the bump path at 4224 and its cursor addition wraps around to 4096;
`ReAllocate(4160, 8, 65)` is then served by the bump path at 4096, on top of
the free node, and copies the 8 bytes of the old block over the node's link.
Two calls `Allocate(8)` pop 4160 and 4096, and the third is served by the
free list with the pointer 1, which is not a multiple of 8.  Every pointer
deallocated was returned before, with the size requested. -/
theorem C1_wrapped_cursor_counterexample :
    ∃ s1 s2 s3 s4 s5 s6 s7,
      Allocate (construct 4096 8191 (storeByte zeroMem 4160 1)) 8 100000 = some (4096, s1) ∧
      Allocate s1 8 100000 = some (4160, s2) ∧
      Allocate (DeAllocate s2 4096 8) (2 ^ 64 - 128) 100000 = some (4224, s3) ∧
      cursorWraps (DeAllocate s2 4096 8) (2 ^ 64 - 128) = true ∧
      ReAllocate s3 4160 8 65 100000 = some (4096, s4) ∧
      Allocate s4 8 100000 = some (4160, s5) ∧
      Allocate s5 8 100000 = some (4096, s6) ∧
      servedBy s6 8 = Path.freeList ∧
      Allocate s6 8 100000 = some (1, s7) ∧ 1 % ALIGNMENT ≠ 0 := by
  refine ⟨_, _, _, _, _, _, _, rfl, rfl, rfl, rfl, rfl, rfl, rfl, rfl, rfl, by decide⟩

/-- C1 as amended: in every state reached by a client that deallocates and
reallocates live pointers only, with the size it requested, and none of whose
requests wrapped the cursor addition around (whatever the alignment of
`begin`), a pointer that `Allocate` returns from the arena - by the free-list
path or by the bump path - is a multiple of `ALIGNMENT = 8`, and it lies in
`[begin, end]` when this call does not wrap either; a pointer taken from the
backing allocator is 8-aligned when the backing allocator's pointer is. -/
theorem C1_arena_pointers_aligned (b e : Nat) (s : AlignedArenaAllocator)
    (live : List (Nat × Nat)) (n g p : Nat) (s1 : AlignedArenaAllocator)
    (hreach : Reach b e s live) (ha : Allocate s n g = some (p, s1)) :
    (servedBy s n = Path.freeList ∨ servedBy s n = Path.bump →
      p % ALIGNMENT = 0 ∧ (cursorWraps s n = false → b ≤ p ∧ p ≤ e)) ∧
    (g % ALIGNMENT = 0 → p % ALIGNMENT = 0) := by
  obtain ⟨fl, hinv⟩ := Reach_Inv hreach
  have halign : servedBy s n ≠ Path.backing → p % 8 = 0 :=
    fun hp => Allocate_aligned hinv ha hp
  have harena : servedBy s n ≠ Path.backing → cursorWraps s n = false → b ≤ p ∧ p ≤ e := by
    intro hp hw
    have := Allocate_arena hinv ha hw hp
    omega
  constructor
  · intro hp
    have hnb : servedBy s n ≠ Path.backing := by
      rcases hp with hp | hp <;> rw [hp] <;> decide
    exact ⟨halign hnb, harena hnb⟩
  · intro hg
    by_cases hbk : servedBy s n = Path.backing
    · rcases Allocate_spec ha with ⟨hfl, _⟩ | ⟨c, sp, hal, _, _, ⟨hbp, _⟩ | ⟨_, _, hp, _⟩⟩
      · rw [hbk] at hfl; cases hfl
      · rw [hbk] at hbp; cases hbp
      · rw [hp]; exact hg
    · exact halign hbk

/-- Instance of C1 as amended on an arena whose `begin = 4099` is not aligned:
`Allocate(8)` returns 4104 from the bump path, `DeAllocate(4104, 8)` puts it on
the free list, and the next `Allocate(8)` returns 4104 from the free list. -/
theorem C1_arena_pointers_aligned_witness :
    servedBy (DeAllocate { construct 4099 8194 zeroMem with m_curr := 4168, pool_size := 4091 }
      4104 8) 8 = Path.freeList ∧
    4104 % ALIGNMENT = 0 ∧ 4099 ≤ 4104 ∧ 4104 ≤ 8194 :=
  ⟨by decide,
   (C1_arena_pointers_aligned 4099 8194
    (DeAllocate { construct 4099 8194 zeroMem with m_curr := 4168, pool_size := 4091 } 4104 8)
    ([(4104, 8)].erase (4104, 8)) 8 100000 4104
    { DeAllocate { construct 4099 8194 zeroMem with m_curr := 4168, pool_size := 4091 } 4104 8
        with m_freeListHead := 0 }
    (Reach.dealloc 4104 8
      (Reach.alloc 8 100000 4104
        { construct 4099 8194 zeroMem with m_curr := 4168, pool_size := 4091 }
        (Reach.init zeroMem (by decide) (by decide) (by decide))
        ⟨by decide, by decide, by simp⟩ (by rfl) rfl)
      (List.mem_cons_self _ _))
    rfl).1 (Or.inl (by decide)) |> fun h => ⟨h.1, h.2 (by rfl)⟩⟩

/-- C6 fails as stated: the arena over `[4096, 8191]` after `Allocate(5000)`
is a reachable state whose cursor is past `end`.  There `Allocate(64)` is
served by the backing allocator, `DeAllocate` hands the block back to it, and
the second `Allocate(64)` is served by the backing allocator again: it returns
whatever the heap returns (here a different address) and moves the cursor from
9160 to 9224 - also when the heap happens to return the same address. -/
theorem C6_recycle_counterexample :
    ∃ s p s1 q s3 s4,
      Reach 4096 8191 s [(100000, 5000)] ∧
      Allocate s MIN_BLOCK_SIZE 200000 = some (p, s1) ∧
      Allocate (DeAllocate s1 p MIN_BLOCK_SIZE) MIN_BLOCK_SIZE 300000 = some (q, s3) ∧
      q ≠ p ∧ s3.m_curr ≠ (DeAllocate s1 p MIN_BLOCK_SIZE).m_curr ∧
      Allocate (DeAllocate s1 p MIN_BLOCK_SIZE) MIN_BLOCK_SIZE 200000 = some (p, s4) ∧
      s4.m_curr ≠ (DeAllocate s1 p MIN_BLOCK_SIZE).m_curr :=
  ⟨{ construct 4096 8191 zeroMem with
      m_curr := 9096, m_globalAllocator := [HeapCall.Allocate 5000 100000] },
   200000,
   { construct 4096 8191 zeroMem with
      m_curr := 9160,
      m_globalAllocator := [HeapCall.Allocate 5000 100000, HeapCall.Allocate 64 200000] },
   300000,
   { construct 4096 8191 zeroMem with
      m_curr := 9224,
      m_globalAllocator := [HeapCall.Allocate 5000 100000, HeapCall.Allocate 64 200000,
        HeapCall.DeAllocate 200000 64, HeapCall.Allocate 64 300000] },
   { construct 4096 8191 zeroMem with
      m_curr := 9224,
      m_globalAllocator := [HeapCall.Allocate 5000 100000, HeapCall.Allocate 64 200000,
        HeapCall.DeAllocate 200000 64, HeapCall.Allocate 64 200000] },
   Reach.alloc 5000 100000 100000 _
    (Reach.init zeroMem (by decide) (by decide) (by decide)) ⟨by decide, by decide, by simp⟩
    (by rfl) rfl,
   rfl, rfl, by decide, by decide, rfl, by decide⟩

/-- C6 as amended: from every state reached by a protocol-following client
none of whose requests wrapped the cursor addition around, if
`p = Allocate(n)` with `n ≤ MIN_BLOCK_SIZE` does not wrap either and is served
from the arena (free list or bump path), then after `DeAllocate(p, n)` the
next `Allocate(n2)` with `n2 ≤ MIN_BLOCK_SIZE` is served by the free list,
returns `p` again, leaves the cursor where it was and restores the free-list
head. -/
theorem C6_recycle_same_address (b e : Nat) (s : AlignedArenaAllocator)
    (live : List (Nat × Nat)) (n n2 g g2 p : Nat) (s1 : AlignedArenaAllocator)
    (hreach : Reach b e s live) (hn : n ≤ MIN_BLOCK_SIZE) (hn2 : n2 ≤ MIN_BLOCK_SIZE)
    (hw : cursorWraps s n = false)
    (ha : Allocate s n g = some (p, s1)) (hpath : servedBy s n ≠ Path.backing) :
    servedBy (DeAllocate s1 p n) n2 = Path.freeList ∧
    ∃ s3, Allocate (DeAllocate s1 p n) n2 g2 = some (p, s3) ∧
      s3.m_curr = (DeAllocate s1 p n).m_curr ∧ s3.m_curr = s1.m_curr ∧
      s3.m_freeListHead = s1.m_freeListHead := by
  obtain ⟨fl, hinv⟩ := Reach_Inv hreach
  obtain ⟨fl1, hinv1⟩ := Inv_alloc hinv (fun hbk => absurd hbk hpath) hw ha
  have hp := Allocate_arena hinv ha hw hpath
  have hsz := sizeToAllocate_ge n
  have hpos := hinv.begin_pos
  have hmin : sizeToAllocate n = MIN_BLOCK_SIZE := (sizeToAllocate_min_iff n).2 hn
  have hmin2 : sizeToAllocate n2 = MIN_BLOCK_SIZE := (sizeToAllocate_min_iff n2).2 hn2
  have hhead : s1.m_freeListHead < 2 ^ 64 := by
    rcases IsChain_head hinv1.chain with h0 | h0
    · rw [h0]; decide
    · have := hinv1.nodes _ h0
      have := hinv1.end_lt
      omega
  have hde : DeAllocate s1 p n =
      { s1 with mem := writePtr s1.mem p s1.m_freeListHead, m_freeListHead := p } := by
    unfold DeAllocate
    rw [if_pos ⟨by rw [hinv1.begin_eq]; exact hp.2.1, by rw [hinv1.end_eq]; omega⟩]
    simp only [hmin, if_true]
  have hne : p ≠ 0 := by omega
  rw [hde]
  constructor
  · unfold servedBy
    rw [if_pos ⟨hmin2, hne⟩]
  · unfold Allocate
    simp only [hmin2, hne, ne_eq, not_false_eq_true, and_self, if_true, Option.some.injEq,
      Prod.mk.injEq, true_and, exists_eq_left']
    exact readPtr_writePtr _ _ _ hhead

/-- Instance of C6 as amended, the spec's scenario A: on a fresh 4096-byte
arena over `[4096, 8191]`, `Allocate(4)` returns `begin = 4096`; after
`DeAllocate(4096, 4)` the next `Allocate(4)` returns 4096 again. -/
theorem C6_recycle_same_address_witness :
    Allocate (construct 4096 8191 zeroMem) 4 100000 =
      some (4096, { construct 4096 8191 zeroMem with m_curr := 4160 }) ∧
    ∃ s3, Allocate (DeAllocate { construct 4096 8191 zeroMem with m_curr := 4160 } 4096 4) 4 100000
        = some (4096, s3) ∧
      s3.m_curr = 4160 :=
  ⟨rfl,
   (C6_recycle_same_address 4096 8191 (construct 4096 8191 zeroMem) [] 4 4 100000 100000 4096
      { construct 4096 8191 zeroMem with m_curr := 4160 }
      (Reach.init zeroMem (by decide) (by decide) (by decide)) (by decide) (by decide)
      (by decide) rfl (by decide)).2.imp fun _ h => ⟨h.1, h.2.2.1⟩⟩

/-- C10 fails as stated.  On the arena over `[4096, 8191]`, with the byte 7
stored at 4096: `Allocate(8)` returns 4096; `Allocate(2 ^ 64 - 64)` is served
by the bump path at 4160 and its cursor addition wraps around to 4096; then
`ReAllocate(4096, 8, 16)` on the live block 4096 is served by the bump path at
4096 itself, and the link that `DeAllocate(4096, 8)` writes lands on the
copied bytes: the first byte at the returned pointer is 0, not 7. -/
theorem C10_wrapped_cursor_counterexample :
    ∃ s1 s2 s3,
      Allocate (construct 4096 8191 (storeByte zeroMem 4096 7)) 8 100000 = some (4096, s1) ∧
      Allocate s1 (2 ^ 64 - 64) 100000 = some (4160, s2) ∧
      cursorWraps s1 (2 ^ 64 - 64) = true ∧
      ReAllocate s2 4096 8 16 100000 = some (4096, s3) ∧
      readByte s2.mem (4096 + 0) = 7 ∧ readByte s3.mem (4096 + 0) = 0 := by
  refine ⟨_, _, _, rfl, rfl, rfl, rfl, rfl, rfl⟩

/-- C10 as amended: for a protocol-following client none of whose requests
wrapped the cursor addition around and a live block `(ptr, old)`, after a
`ReAllocate(ptr, old, new)` that does not wrap either, the first
`min(old, new)` bytes at the returned pointer are the first `min(old, new)`
bytes that were at `ptr` before the call, whichever path served the new
block; the free-list link that `DeAllocate` writes into the old block does
not reach the copy. -/
theorem C10_realloc_keeps_prefix (b e : Nat) (s : AlignedArenaAllocator)
    (live : List (Nat × Nat)) (ptr old new g q : Nat) (s1 : AlignedArenaAllocator)
    (hreach : Reach b e s live) (hlive : (ptr, old) ∈ live) (hf : Fresh b e live g new)
    (hw : cursorWraps s new = false)
    (hr : ReAllocate s ptr old new g = some (q, s1)) :
    ∀ i, i < min old new → readByte s1.mem (q + i) = readByte s.mem (ptr + i) := by
  intro i hi
  obtain ⟨fl, hinv⟩ := Reach_Inv hreach
  obtain ⟨s0, ha, hs⟩ := ReAllocate_spec hr
  obtain ⟨fl1, hinv1⟩ := Inv_alloc hinv (fun _ => hf) hw ha
  have hmem : s0.mem = s.mem := (Allocate_fields ha).2.2.1
  have hd : blocksDisjoint (q, blockLen b e q new) (ptr, blockLen b e ptr old) := by
    have h2 := (List.pairwise_append.1 hinv1.disjoint).2.1
    simp only [liveBlocks, List.map_cons, List.pairwise_cons] at h2
    exact h2.1 (ptr, blockLen b e ptr old) (List.mem_map.2 ⟨(ptr, old), hlive, rfl⟩)
  have hlen := blockLen_ge b e q new
  have hcopy : memcpy s0.mem q ptr (min old new) (q + i) = s.mem (ptr + i) := by
    unfold memcpy
    rw [if_pos ⟨by omega, by omega⟩, hmem]
    congr 1
    omega
  have hfinal : s1.mem (q + i) = s.mem (ptr + i) := by
    rw [hs]
    unfold DeAllocate
    simp only
    split
    · rename_i hin
      split
      · rename_i hmin
        have hbeg := hinv1.begin_eq
        have hend := hinv1.end_eq
        have hlo : blockLen b e ptr old = 64 := by
          rw [blockLen_arena (by omega) (by omega), hmin]; rfl
        unfold blocksDisjoint at hd
        simp only [hlo] at hd
        show writePtr (memcpy s0.mem q ptr (min old new)) ptr s0.m_freeListHead (q + i) = _
        unfold writePtr
        rw [if_neg (by omega)]
        exact hcopy
      · exact hcopy
    · exact hcopy
  unfold readByte
  rw [hfinal]

/-- Instance of C10 as amended, the spec's scenario D: on a fresh arena over
`[4096, 8191]`, `Allocate(100)` returns 4096; the client stores the byte 7 at
`4096 + 3`; `ReAllocate(4096, 100, 300)` returns 4200, and the byte at
`4200 + 3` is 7. -/
theorem C10_realloc_keeps_prefix_witness :
    ReAllocate { construct 4096 8191 zeroMem with
        m_curr := 4196, mem := storeByte zeroMem (4096 + 3) 7 } 4096 100 300 100000 =
      some (4200, { construct 4096 8191 zeroMem with
        m_curr := 4500, pool_size := 4092,
        mem := memcpy (storeByte zeroMem (4096 + 3) 7) 4200 4096 (min 100 300) }) ∧
    readByte (memcpy (storeByte zeroMem (4096 + 3) 7) 4200 4096 (min 100 300)) (4200 + 3) = 7 :=
  ⟨rfl,
   C10_realloc_keeps_prefix 4096 8191
    { construct 4096 8191 zeroMem with m_curr := 4196, mem := storeByte zeroMem (4096 + 3) 7 }
    [(4096, 100)] 4096 100 300 100000 4200
    { construct 4096 8191 zeroMem with
        m_curr := 4500, pool_size := 4092,
        mem := memcpy (storeByte zeroMem (4096 + 3) 7) 4200 4096 (min 100 300) }
    (Reach.store 4096 100 3 7
      (Reach.alloc 100 100000 4096 { construct 4096 8191 zeroMem with m_curr := 4196 }
        (Reach.init zeroMem (by decide) (by decide) (by decide) :
          Reach 4096 8191 (construct 4096 8191 zeroMem) [])
        ⟨by decide, by decide, by simp⟩ (by rfl) rfl)
      (List.mem_cons_self _ _) (by decide))
    (List.mem_cons_self _ _)
    ⟨by decide, by decide, by decide⟩ (by rfl)
    rfl 3 (by decide)⟩

/-! ## The callback, block sizes and the fallback request -/

/-- C11: the callback `l_alloc(ud, ptr, osize, nsize)` dispatches as follows.
With `nsize = 0` it returns null; the state is that of `DeAllocate(ptr, osize)`
when `ptr` is non-null and is unchanged when `ptr` is null.  With `nsize ≠ 0`
it is `Allocate(nsize)` for a null `ptr` and `ReAllocate(ptr, osize, nsize)`
for a non-null `ptr`. -/
theorem C11_l_alloc_dispatch (s : AlignedArenaAllocator) (ptr osize nsize g : Nat) :
    (nsize = 0 → ∃ s1, l_alloc s ptr osize nsize g = some (0, s1) ∧
      (ptr ≠ 0 → s1 = DeAllocate s ptr osize) ∧ (ptr = 0 → s1 = s)) ∧
    (nsize ≠ 0 → ptr = 0 → l_alloc s ptr osize nsize g = Allocate s nsize g) ∧
    (nsize ≠ 0 → ptr ≠ 0 → l_alloc s ptr osize nsize g = ReAllocate s ptr osize nsize g) := by
  unfold l_alloc
  refine ⟨?_, ?_, ?_⟩
  · intro h0
    rw [if_pos h0]
    by_cases hp : ptr = 0
    · exact ⟨s, by simp [hp], fun h => absurd hp h, fun _ => rfl⟩
    · exact ⟨DeAllocate s ptr osize, by simp [hp], fun _ => rfl, fun h => absurd h hp⟩
  · intro h0 hp
    rw [if_neg h0, if_pos hp]
  · intro h0 hp
    rw [if_neg h0, if_neg hp]

/-- Instance of C11 on a fresh arena over `[4096, 8191]`: freeing the arena
pointer 4096 returns null and runs `DeAllocate(4096, 8)`; a request with a null
pointer is `Allocate(8)`. -/
theorem C11_l_alloc_dispatch_witness :
    (∃ s1, l_alloc (construct 4096 8191 zeroMem) 4096 8 0 0 = some (0, s1) ∧
      (4096 ≠ 0 → s1 = DeAllocate (construct 4096 8191 zeroMem) 4096 8) ∧
      (4096 = 0 → s1 = construct 4096 8191 zeroMem)) ∧
    l_alloc (construct 4096 8191 zeroMem) 0 0 8 0 = Allocate (construct 4096 8191 zeroMem) 8 0 :=
  ⟨(C11_l_alloc_dispatch (construct 4096 8191 zeroMem) 4096 8 0 0).1 rfl,
   (C11_l_alloc_dispatch (construct 4096 8191 zeroMem) 0 0 8 0).2.1 (by decide) rfl⟩

/-- C12: `sizeToAllocate(n) = max(n, MIN_BLOCK_SIZE)` for every `n`; for a
request of at most `MIN_BLOCK_SIZE = 64` bytes this is exactly 64, and when the
bump path serves such a request the cursor after the call is the returned
pointer plus 64 (in 64-bit pointer arithmetic; the plain sum `p + 64` unless
`p` lies in the last 64 bytes of the address space) and is at most `end`.  For
a protocol-following client none of whose requests wraps the cursor addition
around, the block of such a request served from the arena (free list or bump
path) is the 64 bytes `[p, p + 64)`: they lie inside the buffer and overlap no
live block. -/
theorem C12_minimum_block_size (s : AlignedArenaAllocator) (n g p : Nat)
    (s1 : AlignedArenaAllocator) :
    sizeToAllocate n = max n MIN_BLOCK_SIZE ∧
    (n ≤ MIN_BLOCK_SIZE → sizeToAllocate n = 64) ∧
    (n ≤ MIN_BLOCK_SIZE → Allocate s n g = some (p, s1) → servedBy s n = Path.bump →
      s1.m_curr = (p + 64) % 2 ^ 64 ∧ s1.m_curr ≤ s1.m_end ∧
      (p + 64 < 2 ^ 64 → s1.m_curr = p + 64 ∧ p + 64 ≤ s1.m_end)) ∧
    (∀ b e live, Reach b e s live → n ≤ MIN_BLOCK_SIZE → cursorWraps s n = false →
      Allocate s n g = some (p, s1) → servedBy s n ≠ Path.backing →
      blockLen b e p n = 64 ∧ b ≤ p ∧ p + 64 ≤ e ∧
      ∀ x ∈ live, blocksDisjoint (p, 64) (x.1, blockLen b e x.1 x.2)) := by
  refine ⟨sizeToAllocate_eq_max n, fun hn => (sizeToAllocate_min_iff n).2 hn, ?_, ?_⟩
  · intro hn ha hb
    have h := Allocate_bump_mod ha hb
    have hmax : max n MIN_BLOCK_SIZE = 64 := by
      unfold MIN_BLOCK_SIZE at hn ⊢
      omega
    rw [hmax] at h
    refine ⟨h.1, by omega, fun hlt => ?_⟩
    have hmod : (p + 64) % 2 ^ 64 = p + 64 := Nat.mod_eq_of_lt hlt
    omega
  · intro b e live hreach hn hw ha hpath
    obtain ⟨fl, hinv⟩ := Reach_Inv hreach
    obtain ⟨fl1, hinv1⟩ := Inv_alloc hinv (fun hbk => absurd hbk hpath) hw ha
    have hp := Allocate_arena hinv ha hw hpath
    have h64 : sizeToAllocate n = 64 := (sizeToAllocate_min_iff n).2 hn
    have hlen : blockLen b e p n = 64 := by
      rw [blockLen_arena hp.2.1 (by omega), h64]
    refine ⟨hlen, hp.2.1, by omega, ?_⟩
    intro x hx
    have h3 := (List.pairwise_append.1 hinv1.disjoint).2.1
    simp only [liveBlocks, List.map_cons, List.pairwise_cons, hlen] at h3
    exact h3.1 (x.1, blockLen b e x.1 x.2) (List.mem_map.2 ⟨x, hx, rfl⟩)

/-- Instance of C12: `Allocate(4)` on a fresh arena over `[4096, 8191]`
returns 4096 and leaves the cursor at `4096 + 64`. -/
theorem C12_minimum_block_size_witness :
    ({ construct 4096 8191 zeroMem with m_curr := 4160 } : AlignedArenaAllocator).m_curr
      = 4096 + 64 :=
  (((C12_minimum_block_size (construct 4096 8191 zeroMem) 4 0 4096
    { construct 4096 8191 zeroMem with m_curr := 4160 }).2.2.1 (by decide) rfl
      (by decide)).2.2 (by decide)).1

/-- C18: when `Allocate(n)` overruns the buffer, the one call it makes on the
backing allocator is `Allocate(n)` with the size as requested, not
`max(n, MIN_BLOCK_SIZE)`, and its result is what the backing allocator
returns. -/
theorem C18_fallback_requests_original_size (s : AlignedArenaAllocator) (n g p : Nat)
    (s1 : AlignedArenaAllocator) (ha : Allocate s n g = some (p, s1))
    (hb : servedBy s n = Path.backing) :
    p = g ∧ s1.m_globalAllocator = s.m_globalAllocator ++ [HeapCall.Allocate n g] := by
  rcases Allocate_spec ha with ⟨hfl, _⟩ | ⟨c, sp, _, _, _, ⟨hbp, _⟩ | ⟨_, _, hp, hs⟩⟩
  · rw [hb] at hfl; cases hfl
  · rw [hb] at hbp; cases hbp
  · subst hs
    exact ⟨hp, rfl⟩

/-- Instance of C18: on an arena over the 64 bytes `[4096, 4159]` the call
`Allocate(8)` overruns and asks the backing allocator for 8 bytes, not 64. -/
theorem C18_fallback_requests_original_size_witness :
    (100000 = 100000 ∧
      ({ construct 4096 4159 zeroMem with
          m_curr := 4160, m_globalAllocator := [HeapCall.Allocate 8 100000] } :
        AlignedArenaAllocator).m_globalAllocator
        = (construct 4096 4159 zeroMem).m_globalAllocator ++ [HeapCall.Allocate 8 100000]) ∧
    HeapCall.Allocate 8 100000 ≠ HeapCall.Allocate 64 100000 :=
  ⟨C18_fallback_requests_original_size (construct 4096 4159 zeroMem) 8 100000 100000
    { construct 4096 4159 zeroMem with
        m_curr := 4160, m_globalAllocator := [HeapCall.Allocate 8 100000] } rfl (by decide),
   by decide⟩

/-! ## Two successive requests and the pool reset -/

theorem Allocate_no_freeList {s : AlignedArenaAllocator} {c sp : Nat} (n g : Nat)
    (hh : s.m_freeListHead = 0)
    (hal : stdAlign ALIGNMENT sizeofThing s.m_curr s.pool_size = some (c, sp)) :
    (c ≠ 0 → (c + sizeToAllocate n) % 2 ^ 64 ≤ s.m_end →
      servedBy s n = Path.bump ∧
      Allocate s n g = some (c, { s with
        m_curr := (c + sizeToAllocate n) % 2 ^ 64, pool_size := sp })) ∧
    (c ≠ 0 → s.m_end < (c + sizeToAllocate n) % 2 ^ 64 →
      servedBy s n = Path.backing ∧
      Allocate s n g = some (g, { s with
        m_curr := (c + sizeToAllocate n) % 2 ^ 64, pool_size := sp,
        m_globalAllocator := s.m_globalAllocator ++ [HeapCall.Allocate n g] })) ∧
    (c = 0 → servedBy s n = Path.exit ∧ Allocate s n g = none) := by
  unfold servedBy Allocate
  rw [hal]
  simp only [hh, ne_eq, not_true_eq_false, and_false, if_false, GlobalAllocator.Allocate]
  refine ⟨?_, ?_, ?_⟩
  · intro hc h
    rw [if_pos hc, if_pos hc, if_pos h, if_pos h]
    exact ⟨rfl, rfl⟩
  · intro hc h
    have h2 : ¬ ((c + sizeToAllocate n) % 2 ^ 64 ≤ s.m_end) := by omega
    rw [if_pos hc, if_pos hc, if_neg h2, if_neg h2]
    exact ⟨rfl, rfl⟩
  · intro hc
    have h2 : ¬ ¬ c = 0 := fun h => h hc
    rw [if_neg h2, if_neg h2]
    exact ⟨rfl, rfl⟩

theorem Allocate_no_freeList_nowrap {s : AlignedArenaAllocator} {c sp : Nat} (n g : Nat)
    (hh : s.m_freeListHead = 0)
    (hal : stdAlign ALIGNMENT sizeofThing s.m_curr s.pool_size = some (c, sp))
    (hc : c ≠ 0) (hlt : c + sizeToAllocate n < 2 ^ 64) :
    (c + sizeToAllocate n ≤ s.m_end →
      servedBy s n = Path.bump ∧
      Allocate s n g = some (c, { s with m_curr := c + sizeToAllocate n, pool_size := sp })) ∧
    (s.m_end < c + sizeToAllocate n →
      servedBy s n = Path.backing ∧
      Allocate s n g = some (g, { s with
        m_curr := c + sizeToAllocate n, pool_size := sp,
        m_globalAllocator := s.m_globalAllocator ++ [HeapCall.Allocate n g] })) := by
  have h := Allocate_no_freeList n g hh hal
  have hmod : (c + sizeToAllocate n) % 2 ^ 64 = c + sizeToAllocate n := Nat.mod_eq_of_lt hlt
  rw [hmod] at h
  exact ⟨h.1 hc, h.2.1 hc⟩

theorem stdAlign_roundUp {c sp : Nat} (h : 15 ≤ sp) (hc : c + 8 ≤ 2 ^ 64) :
    stdAlign ALIGNMENT sizeofThing c sp = some (roundUp c, sp - (roundUp c - c)) := by
  unfold stdAlign roundUp ALIGNMENT sizeofThing
  simp only
  have h1 : (c + 8 - 1) / 8 * 8 % 2 ^ 64 = (c + 8 - 1) / 8 * 8 := by omega
  have h2 : ((c + 8 - 1) / 8 * 8 + 2 ^ 64 - c) % 2 ^ 64 = (c + 8 - 1) / 8 * 8 - c := by omega
  rw [h1, h2, if_neg (by omega), if_neg (by omega)]

theorem stdAlign_aligned_any {c sp : Nat} (hc : c % 8 = 0) (hsp : 8 ≤ sp) :
    stdAlign ALIGNMENT sizeofThing c sp = some (c % 2 ^ 64, sp) := by
  unfold stdAlign ALIGNMENT sizeofThing
  have h1 : (c + 8 - 1) / 8 * 8 = c := by omega
  have h2 : (c % 2 ^ 64 + 2 ^ 64 - c) % 2 ^ 64 = 0 := by omega
  simp only [h1, h2]
  simp
  omega

theorem roundUp_facts (x : Nat) : x ≤ roundUp x ∧ roundUp x < x + 8 ∧ roundUp x % 8 = 0 := by
  unfold roundUp ALIGNMENT
  omega

theorem roundUp_add {b x : Nat} (hb : b % 8 = 0) : roundUp (b + x) = b + roundUp x := by
  unfold roundUp ALIGNMENT
  omega

/-- C14 fails as stated: on a fresh arena over the 4096 bytes `[4096, 8191]`
the calls `Allocate(200)` and `Allocate(65)` are both served by the bump path
and leave the cursor at `4096 + 200 + 65 = 4361`; the sum of the two sizes
rounded up to the alignment would put it at `4096 + 200 + 72 = 4368`. -/
theorem C14_cursor_sum_counterexample :
    ∃ s1 s2, Allocate (construct 4096 8191 zeroMem) 200 0 = some (4096, s1) ∧
      servedBy (construct 4096 8191 zeroMem) 200 = Path.bump ∧
      Allocate s1 65 0 = some (4296, s2) ∧ servedBy s1 65 = Path.bump ∧
      s2.m_curr = 4361 ∧
      s2.m_curr ≠ 4096 + (roundUp (max 200 MIN_BLOCK_SIZE) + roundUp (max 65 MIN_BLOCK_SIZE)) :=
  ⟨{ construct 4096 8191 zeroMem with m_curr := 4296 },
   { construct 4096 8191 zeroMem with m_curr := 4361 },
   rfl, by decide, rfl, by decide, rfl, by decide⟩

/-- C14 as amended: on a freshly constructed arena over a buffer
`[begin, end]` of the 64-bit address space with 8-aligned non-null `begin`,
two successive requests of sizes `a` and `c` that both pass the bound test of
line 161, that is `begin + roundUp(max(a, 64)) + max(c, 64) <= end`, are
served at `begin` and at `begin + roundUp(max(a, 64))`: two non-overlapping
8-aligned blocks.  Each call advances the cursor by at least the requested
size, and the cursor after both calls is
`begin + roundUp(max(a, 64)) + max(c, 64)`: the first size is rounded up to
the minimum block size and to the alignment, the second to the minimum block
size only. -/
theorem C14_two_allocations (b e : Nat) (m : Mem) (a c g1 g2 : Nat) (hb : b % 8 = 0)
    (hb0 : 0 < b) (he : e < 2 ^ 64)
    (hfit : b + roundUp (max a MIN_BLOCK_SIZE) + max c MIN_BLOCK_SIZE ≤ e) :
    ∃ s1 s2, Allocate (construct b e m) a g1 = some (b, s1) ∧
      Allocate s1 c g2 = some (b + roundUp (max a MIN_BLOCK_SIZE), s2) ∧
      servedBy (construct b e m) a = Path.bump ∧ servedBy s1 c = Path.bump ∧
      b % ALIGNMENT = 0 ∧ (b + roundUp (max a MIN_BLOCK_SIZE)) % ALIGNMENT = 0 ∧
      blocksDisjoint (b, max a MIN_BLOCK_SIZE)
        (b + roundUp (max a MIN_BLOCK_SIZE), max c MIN_BLOCK_SIZE) ∧
      (construct b e m).m_curr + a ≤ s1.m_curr ∧ s1.m_curr + c ≤ s2.m_curr ∧
      s2.m_curr = b + roundUp (max a MIN_BLOCK_SIZE) + max c MIN_BLOCK_SIZE := by
  have hr := roundUp_facts (max a MIN_BLOCK_SIZE)
  have hma : MIN_BLOCK_SIZE ≤ max a MIN_BLOCK_SIZE ∧ a ≤ max a MIN_BLOCK_SIZE :=
    ⟨Nat.le_max_right _ _, Nat.le_max_left _ _⟩
  have hmc : MIN_BLOCK_SIZE ≤ max c MIN_BLOCK_SIZE ∧ c ≤ max c MIN_BLOCK_SIZE :=
    ⟨Nat.le_max_right _ _, Nat.le_max_left _ _⟩
  have h64 : MIN_BLOCK_SIZE = 64 := rfl
  have hsa : sizeToAllocate a = max a MIN_BLOCK_SIZE := sizeToAllocate_eq_max a
  have hsc : sizeToAllocate c = max c MIN_BLOCK_SIZE := sizeToAllocate_eq_max c
  have hal1 : stdAlign ALIGNMENT sizeofThing (construct b e m).m_curr (construct b e m).pool_size
      = some (b, e - b + 1) :=
    stdAlign_aligned hb (show 8 ≤ e - b + 1 by omega) (show b < 2 ^ 64 by omega)
  have h1 := (Allocate_no_freeList_nowrap a g1 rfl hal1 (by omega) (by omega)).1
    (by show b + sizeToAllocate a ≤ e; omega)
  have hal2 : stdAlign ALIGNMENT sizeofThing (b + sizeToAllocate a) (e - b + 1)
      = some (b + roundUp (max a MIN_BLOCK_SIZE),
          e - b + 1 - (roundUp (b + sizeToAllocate a) - (b + sizeToAllocate a))) := by
    rw [stdAlign_roundUp (by omega) (by omega), roundUp_add hb, hsa]
  have h2 := (@Allocate_no_freeList_nowrap
      { construct b e m with m_curr := b + sizeToAllocate a, pool_size := e - b + 1 } _ _
      c g2 rfl hal2 (by omega) (by omega)).1
    (by show _ ≤ e; omega)
  refine ⟨_, _, h1.2, h2.2, h1.1, h2.1, hb, ?_, ?_, ?_, ?_, ?_⟩
  · unfold ALIGNMENT; omega
  · left; show b + max a MIN_BLOCK_SIZE ≤ b + roundUp (max a MIN_BLOCK_SIZE); omega
  · show b + a ≤ b + sizeToAllocate a
    omega
  · show b + sizeToAllocate a + c ≤ b + roundUp (max a MIN_BLOCK_SIZE) + sizeToAllocate c
    omega
  · show b + roundUp (max a MIN_BLOCK_SIZE) + sizeToAllocate c = _
    rw [hsc]

/-- Instance of C14 as amended, the spec's scenario B: on a fresh arena over
`[4096, 8191]`, `Allocate(200)` twice returns 4096 and 4296 and leaves the
cursor at `4096 + 200 + 200`. -/
theorem C14_two_allocations_witness :
    ∃ s1 s2, Allocate (construct 4096 8191 zeroMem) 200 0 = some (4096, s1) ∧
      Allocate s1 200 0 = some (4096 + roundUp (max 200 MIN_BLOCK_SIZE), s2) ∧
      servedBy (construct 4096 8191 zeroMem) 200 = Path.bump ∧ servedBy s1 200 = Path.bump ∧
      4096 % ALIGNMENT = 0 ∧ (4096 + roundUp (max 200 MIN_BLOCK_SIZE)) % ALIGNMENT = 0 ∧
      blocksDisjoint (4096, max 200 MIN_BLOCK_SIZE)
        (4096 + roundUp (max 200 MIN_BLOCK_SIZE), max 200 MIN_BLOCK_SIZE) ∧
      (construct 4096 8191 zeroMem).m_curr + 200 ≤ s1.m_curr ∧ s1.m_curr + 200 ≤ s2.m_curr ∧
      s2.m_curr = 4096 + roundUp (max 200 MIN_BLOCK_SIZE) + max 200 MIN_BLOCK_SIZE :=
  C14_two_allocations 4096 8191 zeroMem 200 200 0 0 (by decide) (by decide) (by decide)
    (by decide)

theorem stepOp_pool_size {s : AlignedArenaAllocator} {op : Op} {r : Option Nat}
    {s1 : AlignedArenaAllocator} (h : stepOp s op = some (r, s1)) (hp : 8 ≤ s.pool_size) :
    8 ≤ s1.pool_size := by
  have halloc : ∀ n g q s0, Allocate s n g = some (q, s0) → 8 ≤ s0.pool_size := by
    intro n g q s0 ha
    rcases Allocate_spec ha with ⟨_, _, _, _, hs⟩ |
      ⟨c, sp, hal, _, _, ⟨_, _, _, hs⟩ | ⟨_, _, _, hs⟩⟩
    · subst hs; exact hp
    · subst hs; exact (stdAlign_result hal).2.2.1
    · subst hs; exact (stdAlign_result hal).2.2.1
  cases op with
  | alloc n g =>
    simp only [stepOp, Option.map_eq_some', Prod.mk.injEq] at h
    obtain ⟨⟨p, s0⟩, ha, -, hs⟩ := h
    simp only at hs; subst hs
    exact halloc n g p _ ha
  | dealloc p n =>
    simp only [stepOp, Option.some.injEq, Prod.mk.injEq] at h
    rw [← h.2, (DeAllocate_fields s p n).2.2.2]
    exact hp
  | realloc p o n g =>
    simp only [stepOp, Option.map_eq_some', Prod.mk.injEq] at h
    obtain ⟨⟨q, s0⟩, ha, -, hs⟩ := h
    simp only at hs; subst hs
    obtain ⟨s2, ha2, hs2⟩ := ReAllocate_spec ha
    have h2 := halloc n g q s2 ha2
    have hd := DeAllocate_fields { s2 with mem := memcpy s2.mem q p (min o n) } p o
    rw [hs2, hd.2.2.2]
    exact h2
  | reset =>
    simp only [stepOp, Option.some.injEq, Prod.mk.injEq] at h
    rw [← h.2]
    exact hp

theorem runOps_pool_size (ops : List Op) : ∀ (s s1 : AlignedArenaAllocator),
    runOps s ops = some s1 → 8 ≤ s.pool_size → 8 ≤ s1.pool_size := by
  induction ops with
  | nil =>
    intro s s1 h hp
    simp only [runOps, Option.some.injEq] at h
    subst h; exact hp
  | cons op ops ih =>
    intro s s1 h hp
    simp only [runOps] at h
    cases hst : stepOp s op with
    | none => rw [hst] at h; simp at h
    | some r =>
      obtain ⟨r0, s0⟩ := r
      rw [hst] at h
      exact ih s0 s1 h (stepOp_pool_size hst hp)

/-- C16: from every state `reset_pool` yields `curr = begin` and an empty free
list and leaves `begin` and `end` as they were.  Hence on an arena constructed
over a buffer of at least 8 bytes with 8-aligned `begin`, after any sequence
of calls, `Allocate` after `reset_pool` takes the same path and returns the
same pointer as on the freshly constructed allocator; when the buffer is a
non-null part of the 64-bit address space and the request fits
(`begin + max(n, 64) <= end`), that pointer is `begin`. -/
theorem C16_reset_pool (s : AlignedArenaAllocator) :
    (reset_pool s).m_curr = s.m_begin ∧ (reset_pool s).m_freeListHead = 0 ∧
    (reset_pool s).m_begin = s.m_begin ∧ (reset_pool s).m_end = s.m_end ∧
    (∀ b e m ops n g, b % 8 = 0 → b + 7 ≤ e → runOps (construct b e m) ops = some s →
      servedBy (reset_pool s) n = servedBy (construct b e m) n ∧
      (Allocate (reset_pool s) n g).map Prod.fst =
        (Allocate (construct b e m) n g).map Prod.fst ∧
      (0 < b → e < 2 ^ 64 → b + sizeToAllocate n ≤ e →
        ∃ s1, Allocate (reset_pool s) n g = some (b, s1))) := by
  refine ⟨rfl, rfl, rfl, rfl, ?_⟩
  intro b e m ops n g hb hbe hrun
  have hf := runOps_fields ops (construct b e m) s hrun
  have hbeg : s.m_begin = b := hf.1
  have hend : s.m_end = e := hf.2.1
  have hpool : 8 ≤ s.pool_size :=
    runOps_pool_size ops (construct b e m) s hrun (show 8 ≤ e - b + 1 by omega)
  have halr : stdAlign ALIGNMENT sizeofThing (reset_pool s).m_curr (reset_pool s).pool_size
      = some (b % 2 ^ 64, s.pool_size) := by
    have h := @stdAlign_aligned_any s.m_begin s.pool_size (by rw [hbeg]; exact hb) hpool
    have h2 : some (s.m_begin % 2 ^ 64, s.pool_size) = some (b % 2 ^ 64, s.pool_size) := by
      rw [hbeg]
    exact h.trans h2
  have halc : stdAlign ALIGNMENT sizeofThing (construct b e m).m_curr (construct b e m).pool_size
      = some (b % 2 ^ 64, e - b + 1) :=
    stdAlign_aligned_any hb (show 8 ≤ e - b + 1 by omega)
  have hr := Allocate_no_freeList n g (show (reset_pool s).m_freeListHead = 0 from rfl) halr
  have hc := Allocate_no_freeList n g (show (construct b e m).m_freeListHead = 0 from rfl) halc
  have hre : (reset_pool s).m_end = e := hend
  have hce : (construct b e m).m_end = e := rfl
  rw [hre] at hr
  rw [hce] at hc
  have hsame : servedBy (reset_pool s) n = servedBy (construct b e m) n ∧
      (Allocate (reset_pool s) n g).map Prod.fst =
        (Allocate (construct b e m) n g).map Prod.fst := by
    by_cases h0 : b % 2 ^ 64 = 0
    · have h1 := hr.2.2 h0
      have h2 := hc.2.2 h0
      exact ⟨by rw [h1.1, h2.1], by rw [h1.2, h2.2]⟩
    · by_cases hfit : (b % 2 ^ 64 + sizeToAllocate n) % 2 ^ 64 ≤ e
      · have h1 := hr.1 h0 hfit
        have h2 := hc.1 h0 hfit
        exact ⟨by rw [h1.1, h2.1], by rw [h1.2, h2.2]; rfl⟩
      · have h1 := hr.2.1 h0 (by omega)
        have h2 := hc.2.1 h0 (by omega)
        exact ⟨by rw [h1.1, h2.1], by rw [h1.2, h2.2]; rfl⟩
  refine ⟨hsame.1, hsame.2, ?_⟩
  intro hb0 he hfit
  have hbm : b % 2 ^ 64 = b := Nat.mod_eq_of_lt (by omega)
  rw [hbm] at hr
  have hmod : (b + sizeToAllocate n) % 2 ^ 64 = b + sizeToAllocate n :=
    Nat.mod_eq_of_lt (by omega)
  exact ⟨_, (hr.1 (by omega) (by rw [hmod]; exact hfit)).2⟩

/-- Instance of C16: on the arena over `[4096, 8191]`, after `Allocate(200)` and
`reset_pool`, the call `Allocate(8)` returns `begin = 4096`. -/
theorem C16_reset_pool_witness :
    ∃ s1, Allocate (reset_pool { construct 4096 8191 zeroMem with m_curr := 4296 }) 8 0
      = some (4096, s1) :=
  ((C16_reset_pool { construct 4096 8191 zeroMem with m_curr := 4296 }).2.2.2.2
    4096 8191 zeroMem [Op.alloc 200 0] 8 0 (by decide) (by decide) rfl).2.2 (by decide)
    (by decide) (by decide)

/-! ## The free list of protocol-following clients -/

/-- C13 fails as stated.  On the arena over `[4096, 8191]`, with the byte 1
stored at 4160: `Allocate(8)` returns 4096 and `Allocate(8)` returns 4160;
`DeAllocate(4096, 8)` puts 4096 on the free list; `Allocate(2 ^ 64 - 128)` is
served by the bump path at 4224 and its cursor addition wraps around to 4096;
`ReAllocate(4160, 8, 65)` is then served by the bump path at 4096, on top of
the free node, and copies the 8 bytes of the old block over the node's link.
The free list in memory is then `4160 -> 4096 -> 1`: its last node is neither
8-aligned nor inside the buffer, and the node 4096 lies inside the live block
that `ReAllocate` returned.  Every pointer deallocated was returned before,
with the size requested. -/
theorem C13_wrapped_cursor_counterexample :
    ∃ s1 s2 s3 s4,
      Allocate (construct 4096 8191 (storeByte zeroMem 4160 1)) 8 100000 = some (4096, s1) ∧
      Allocate s1 8 100000 = some (4160, s2) ∧
      Allocate (DeAllocate s2 4096 8) (2 ^ 64 - 128) 100000 = some (4224, s3) ∧
      cursorWraps (DeAllocate s2 4096 8) (2 ^ 64 - 128) = true ∧
      ReAllocate s3 4160 8 65 100000 = some (4096, s4) ∧
      IsChain s4.mem s4.m_freeListHead [4160, 4096, 1] ∧
      1 % ALIGNMENT ≠ 0 ∧ ¬ (s4.m_begin ≤ 1) ∧
      ¬ blocksDisjoint (4096, MIN_BLOCK_SIZE) (4096, 65) := by
  refine ⟨_, _, _, _, rfl, rfl, rfl, rfl, rfl,
    ⟨rfl, by decide, rfl, by decide, rfl, by decide, rfl⟩, by decide, by decide, by decide⟩

/-- C13 as amended: in every state reached by a client that deallocates and
reallocates live pointers only, with the size it requested, and none of whose
requests wrapped the cursor addition around `2 ^ 64`, the free list in memory
is a finite chain of nodes ending at null; every node is 8-aligned and starts
a block of `MIN_BLOCK_SIZE` bytes that lies within `[begin, end]` and overlaps
no other node's block and no live block.  The list is empty after
construction and after `reset_pool`. -/
theorem C13_free_list_invariant (b e : Nat) (s : AlignedArenaAllocator)
    (live : List (Nat × Nat)) (hreach : Reach b e s live) :
    (∃ fl, IsChain s.mem s.m_freeListHead fl ∧
      (∀ q ∈ fl, q % ALIGNMENT = 0 ∧ s.m_begin ≤ q ∧ q + MIN_BLOCK_SIZE ≤ s.m_end) ∧
      (nodeBlocks fl ++ liveBlocks b e live).Pairwise blocksDisjoint) ∧
    (∀ m, (construct b e m).m_freeListHead = 0) ∧
    (reset_pool s).m_freeListHead = 0 := by
  obtain ⟨fl, hinv⟩ := Reach_Inv hreach
  refine ⟨⟨fl, hinv.chain, ?_, hinv.disjoint⟩, fun _ => rfl, rfl⟩
  intro q hq
  have := hinv.nodes q hq
  rw [hinv.begin_eq, hinv.end_eq]
  unfold ALIGNMENT MIN_BLOCK_SIZE
  omega

/-- Instance of C13: on the arena over `[4096, 8191]`, after `Allocate(8)`
returned 4096 and `DeAllocate(4096, 8)`, the free list is the single node
4096. -/
theorem C13_free_list_invariant_witness :
    IsChain (DeAllocate { construct 4096 8191 zeroMem with m_curr := 4160 } 4096 8).mem
      (DeAllocate { construct 4096 8191 zeroMem with m_curr := 4160 } 4096 8).m_freeListHead
      [4096] ∧
    ∃ fl, IsChain (DeAllocate { construct 4096 8191 zeroMem with m_curr := 4160 } 4096 8).mem
        (DeAllocate { construct 4096 8191 zeroMem with m_curr := 4160 } 4096 8).m_freeListHead
        fl ∧
      (∀ q ∈ fl, q % ALIGNMENT = 0 ∧
        (DeAllocate { construct 4096 8191 zeroMem with m_curr := 4160 } 4096 8).m_begin ≤ q ∧
        q + MIN_BLOCK_SIZE ≤
          (DeAllocate { construct 4096 8191 zeroMem with m_curr := 4160 } 4096 8).m_end) ∧
      (nodeBlocks fl ++ liveBlocks 4096 8191 ([(4096, 8)].erase (4096, 8))).Pairwise
        blocksDisjoint :=
  ⟨⟨rfl, by decide, rfl⟩,
   (C13_free_list_invariant 4096 8191
    (DeAllocate { construct 4096 8191 zeroMem with m_curr := 4160 } 4096 8)
    ([(4096, 8)].erase (4096, 8))
    (Reach.dealloc 4096 8
      (Reach.alloc 8 100000 4096 { construct 4096 8191 zeroMem with m_curr := 4160 }
        (Reach.init zeroMem (by decide) (by decide) (by decide) :
          Reach 4096 8191 (construct 4096 8191 zeroMem) [])
        ⟨by decide, by decide, by simp⟩ (by rfl) rfl)
      (List.mem_cons_self _ _))).1⟩

/-! ## Reallocation against allocate-then-deallocate -/

theorem DeAllocate_mem_congr (s : AlignedArenaAllocator) (m1 : Mem) (ptr osize a : Nat)
    (h : m1 a = s.mem a) :
    (DeAllocate { s with mem := m1 } ptr osize).mem a = (DeAllocate s ptr osize).mem a := by
  unfold DeAllocate
  simp only
  split
  · split
    · simp only [writePtr]
      split
      · rfl
      · exact h
    · exact h
  · exact h

theorem DeAllocate_mem_fields (s : AlignedArenaAllocator) (m1 : Mem) (ptr osize : Nat) :
    (DeAllocate { s with mem := m1 } ptr osize).m_freeListHead
      = (DeAllocate s ptr osize).m_freeListHead ∧
    (DeAllocate { s with mem := m1 } ptr osize).m_globalAllocator
      = (DeAllocate s ptr osize).m_globalAllocator := by
  unfold DeAllocate
  simp only
  split
  · split <;> exact ⟨rfl, rfl⟩
  · exact ⟨rfl, rfl⟩

/-- C17 fails as stated.  On the arena over `[4096, 8191]`: `Allocate(8)`
returns 4096; `Allocate(2 ^ 64 - 64)` is served by the bump path at 4160 and
its cursor addition wraps around to 4096; then `ReAllocate(4096, 8, 16)` on
the live block 4096 is served by the bump path and returns 4096, the pointer
it was given. -/
theorem C17_wrapped_cursor_counterexample :
    ∃ s1 s2 s3,
      Allocate (construct 4096 8191 zeroMem) 8 100000 = some (4096, s1) ∧
      Allocate s1 (2 ^ 64 - 64) 100000 = some (4160, s2) ∧
      cursorWraps s1 (2 ^ 64 - 64) = true ∧
      servedBy s2 16 = Path.bump ∧
      ReAllocate s2 4096 8 16 100000 = some (4096, s3) := by
  refine ⟨_, _, _, rfl, rfl, rfl, rfl, rfl⟩

/-- C17 as amended: for every state and every `ptr`, `ReAllocate(ptr, old, new)`
exits exactly when `Allocate(new)` followed by `DeAllocate(ptr, old)` does;
otherwise it returns the pointer that `Allocate(new)` returned and ends with
the same cursor, pool size, free-list head, bounds and backing-allocator
calls, and with the same memory outside the `min(old, new)` copied bytes.  For
a protocol-following client none of whose requests wrapped the cursor addition
around `2 ^ 64`, a live arena block `ptr` and a call that does not wrap
either, the returned pointer is never `ptr`, and both ways end with the same
free list in memory. -/
theorem C17_realloc_is_allocate_then_deallocate (s : AlignedArenaAllocator)
    (ptr old new g : Nat) :
    (ReAllocate s ptr old new g = none ↔ allocateThenDeAllocate s ptr old new g = none) ∧
    (∀ q s1, ReAllocate s ptr old new g = some (q, s1) →
      ∃ s0 s2, Allocate s new g = some (q, s0) ∧
        allocateThenDeAllocate s ptr old new g = some (q, s2) ∧
        s1.m_curr = s2.m_curr ∧ s1.pool_size = s2.pool_size ∧
        s1.m_freeListHead = s2.m_freeListHead ∧ s1.m_begin = s2.m_begin ∧
        s1.m_end = s2.m_end ∧ s1.m_globalAllocator = s2.m_globalAllocator ∧
        (∀ a, ¬ (q ≤ a ∧ a < q + min old new) → s1.mem a = s2.mem a) ∧
        (∀ b e live, Reach b e s live → (ptr, old) ∈ live → b ≤ ptr → ptr ≤ e →
          Fresh b e live g new → cursorWraps s new = false →
          q ≠ ptr ∧ ∃ fl, IsChain s1.mem s1.m_freeListHead fl ∧
            IsChain s2.mem s2.m_freeListHead fl)) := by
  constructor
  · unfold ReAllocate allocateThenDeAllocate
    cases Allocate s new g with
    | none => simp
    | some r => simp
  · intro q s1 hr
    obtain ⟨s0, ha, hs⟩ := ReAllocate_spec hr
    have h2 : allocateThenDeAllocate s ptr old new g = some (q, DeAllocate s0 ptr old) := by
      unfold allocateThenDeAllocate
      rw [ha]
    have hd1 := DeAllocate_fields { s0 with mem := memcpy s0.mem q ptr (min old new) } ptr old
    have hd2 := DeAllocate_fields s0 ptr old
    have hm := DeAllocate_mem_fields s0 (memcpy s0.mem q ptr (min old new)) ptr old
    have hmem : ∀ a, ¬ (q ≤ a ∧ a < q + min old new) →
        s1.mem a = (DeAllocate s0 ptr old).mem a := by
      intro a hna
      rw [hs]
      apply DeAllocate_mem_congr
      unfold memcpy
      rw [if_neg hna]
    refine ⟨s0, DeAllocate s0 ptr old, ha, h2, ?_, ?_, ?_, ?_, ?_, ?_, hmem, ?_⟩
    · rw [hs, hd1.2.2.1, hd2.2.2.1]
    · rw [hs, hd1.2.2.2, hd2.2.2.2]
    · rw [hs, hm.1]
    · rw [hs, hd1.1, hd2.1]
    · rw [hs, hd1.2.1, hd2.2.1]
    · rw [hs, hm.2]
    · intro b e live hreach hlive hb1 hb2 hf hw
      obtain ⟨fl, hinv⟩ := Reach_Inv hreach
      obtain ⟨fl1, hinv1⟩ := Inv_alloc hinv (fun _ => hf) hw ha
      have hd : blocksDisjoint (q, blockLen b e q new) (ptr, blockLen b e ptr old) := by
        have h3 := (List.pairwise_append.1 hinv1.disjoint).2.1
        simp only [liveBlocks, List.map_cons, List.pairwise_cons] at h3
        exact h3.1 (ptr, blockLen b e ptr old) (List.mem_map.2 ⟨(ptr, old), hlive, rfl⟩)
      have hne : q ≠ ptr := by
        intro hq
        subst hq
        have h64 := sizeToAllocate_ge old
        rw [blockLen_arena hb1 hb2, blockLen_arena hb1 hb2] at hd
        have h64n := sizeToAllocate_ge new
        unfold blocksDisjoint at hd
        simp only at hd
        omega
      refine ⟨hne, ?_⟩
      obtain ⟨fl2, hinv2⟩ := Inv_dealloc hinv1 (List.mem_cons_of_mem _ hlive)
      have hqmem : (q, new) ∈ ((q, new) :: live).erase (ptr, old) := by
        rw [List.mem_erase_of_ne (fun h => hne (congrArg Prod.fst h))]
        exact List.mem_cons_self _ _
      refine ⟨fl2, ?_, hinv2.chain⟩
      rw [show s1.m_freeListHead = (DeAllocate s0 ptr old).m_freeListHead by rw [hs, hm.1]]
      apply IsChain_frame fl2 _ hinv2.chain
      intro n1 hn1
      have hdn := pairwise_node_block hinv2.disjoint hn1 hqmem
      have hge := blockLen_ge b e q new
      unfold blocksDisjoint at hdn
      simp only at hdn
      apply readPtr_frame _ _ n1 q (min old new) hmem
      omega

/-- Instance of C17: on the arena over `[4096, 8191]` with the live block
`(4096, 8)`, `ReAllocate(4096, 8, 16)` returns 4160, the pointer of
`Allocate(16)`, and not 4096, although both sizes are at most `MIN_BLOCK_SIZE`. -/
theorem C17_realloc_is_allocate_then_deallocate_witness :
    ∃ s0 s2, Allocate { construct 4096 8191 zeroMem with m_curr := 4160 } 16 100000
        = some (4160, s0) ∧
      allocateThenDeAllocate { construct 4096 8191 zeroMem with m_curr := 4160 } 4096 8 16 100000
        = some (4160, s2) ∧
      4160 ≠ 4096 :=
  match (C17_realloc_is_allocate_then_deallocate
      { construct 4096 8191 zeroMem with m_curr := 4160 } 4096 8 16 100000).2 4160
      (DeAllocate { construct 4096 8191 zeroMem with
          m_curr := 4224, mem := memcpy zeroMem 4160 4096 (min 8 16) } 4096 8) rfl with
  | ⟨s0, s2, h1, h2, _, _, _, _, _, _, _, h3⟩ =>
    ⟨s0, s2, h1, h2,
      (h3 4096 8191 [(4096, 8)]
        (Reach.alloc 8 100000 4096 { construct 4096 8191 zeroMem with m_curr := 4160 }
          (Reach.init zeroMem (by decide) (by decide) (by decide) :
            Reach 4096 8191 (construct 4096 8191 zeroMem) [])
          ⟨by decide, by decide, by simp⟩ (by rfl) rfl)
        (List.mem_cons_self _ _) (by decide) (by decide)
        ⟨by decide, by decide, by decide⟩ (by rfl)).1⟩

/-! ## Blocks above the minimum size are never reclaimed -/

theorem Inv_perm {b e : Nat} {s : AlignedArenaAllocator} {live live1 : List (Nat × Nat)}
    {fl : List Nat} (h : Inv b e s live fl) (hp : live.Perm live1) : Inv b e s live1 fl := by
  refine ⟨h.begin_eq, h.end_eq, h.begin_pos, h.end_lt, h.cursor, h.cursor_lt, h.chain, h.nodes, ?_, ?_⟩
  · intro x hx
    exact h.blocks x (hp.mem_iff.2 hx)
  · have hp2 : (nodeBlocks fl ++ liveBlocks b e live).Perm
        (nodeBlocks fl ++ liveBlocks b e live1) :=
      List.Perm.append_left _ (hp.map _)
    exact (List.Perm.pairwise_iff (fun h => blocksDisjoint_symm h) hp2).1 h.disjoint

theorem Fresh_append_arena {b e : Nat} {live : List (Nat × Nat)} {g n : Nat} {x : Nat × Nat}
    (hf : Fresh b e live g n) (hx1 : b ≤ x.1) (hx2 : x.1 + sizeToAllocate x.2 ≤ e) :
    Fresh b e (live ++ [x]) g n := by
  obtain ⟨h1, h2, h3⟩ := hf
  refine ⟨h1, h2, ?_⟩
  intro y hy
  rcases List.mem_append.1 hy with hy | hy
  · exact h3 y hy
  · have hyx : y = x := List.mem_singleton.1 hy
    subst hyx
    have h64 := sizeToAllocate_ge y.2
    rw [blockLen_arena hx1 (by omega)]
    unfold blocksDisjoint
    simp only
    omega

theorem Steps_Inv {b e : Nat} {s0 s : AlignedArenaAllocator} {live0 live : List (Nat × Nat)}
    {x : Nat × Nat} (hx1 : b ≤ x.1) (hx2 : x.1 + sizeToAllocate x.2 ≤ e)
    (h0 : ∃ fl, Inv b e s0 (live0 ++ [x]) fl) (h : Steps b e s0 live0 s live) :
    ∃ fl, Inv b e s (live ++ [x]) fl := by
  induction h with
  | refl => exact h0
  | alloc n g p s1 _ hf hw ha ih =>
    obtain ⟨fl, hi⟩ := ih
    exact Inv_alloc hi (fun _ => Fresh_append_arena hf hx1 hx2) hw ha
  | dealloc p n _ hm ih =>
    obtain ⟨fl, hi⟩ := ih
    have := Inv_dealloc hi (List.mem_append_left _ hm)
    rw [List.erase_append_left _ hm] at this
    exact this
  | @realloc sa la p o n g q s1 _ hm hf hw hr ih =>
    obtain ⟨fl, hi⟩ := ih
    obtain ⟨s2, ha, hs⟩ := ReAllocate_spec hr
    obtain ⟨fl1, hi1⟩ := Inv_alloc hi (fun _ => Fresh_append_arena hf hx1 hx2) hw ha
    have hi2 := Inv_memcpy hi1 p (min o n) (Nat.min_le_right _ _)
    have hmem : (p, o) ∈ (q, n) :: la := List.mem_cons_of_mem _ hm
    have e1 : ((q, n) :: (la ++ [x])).erase (p, o) = ((q, n) :: la).erase (p, o) ++ [x] :=
      List.erase_append_left [x] hmem
    have := Inv_dealloc hi2 (List.mem_cons_of_mem _ (List.mem_append_left _ hm))
    rw [e1] at this
    subst hs
    exact this
  | store p n i v _ hm hi ih =>
    obtain ⟨fl, hinv⟩ := ih
    refine ⟨fl, Inv_write hinv (List.mem_append_left _ hm) _ ?_⟩
    intro a ha
    unfold storeByte
    simp only at ha
    rw [if_neg (by omega)]

/-- C15 fails as stated.  On the arena over `[4096, 8191]`: `Allocate(200)`
returns 4096; `DeAllocate(4096, 200)` changes nothing; `Allocate(2 ^ 64 - 200)`
is served by the bump path at 4296 and its cursor addition wraps around to
4096; the next `Allocate(200)` is served by the bump path and returns 4096:
the storage of the block of 200 bytes is handed out again, without
`reset_pool`. -/
theorem C15_wrapped_cursor_counterexample :
    ∃ s1 s2 s3,
      Allocate (construct 4096 8191 zeroMem) 200 100000 = some (4096, s1) ∧
      DeAllocate s1 4096 200 = s1 ∧
      Allocate (DeAllocate s1 4096 200) (2 ^ 64 - 200) 100000 = some (4296, s2) ∧
      cursorWraps (DeAllocate s1 4096 200) (2 ^ 64 - 200) = true ∧
      servedBy s2 200 = Path.bump ∧
      Allocate s2 200 100000 = some (4096, s3) ∧
      ¬ blocksDisjoint (4096, blockLen 4096 8191 4096 200) (4096, 200) := by
  refine ⟨_, _, _, rfl, rfl, rfl, rfl, rfl, rfl, by decide⟩

/-- C15 as amended: for every state, every `ptr` with `begin <= ptr <= end` and
every `size > MIN_BLOCK_SIZE`, `DeAllocate(ptr, size)` returns the state
unchanged: cursor, free list, bounds, pool size, memory and the calls made on
the backing allocator.  For a protocol-following client and a live block
`(ptr, size)`, no block returned by any `Allocate` of a continuation without
`reset_pool` overlaps `[ptr, ptr + size)`, as long as no request, before or
after, wraps the cursor addition around `2 ^ 64`. -/
theorem C15_large_block_never_reused (s : AlignedArenaAllocator) (ptr size : Nat)
    (hin : s.m_begin ≤ ptr ∧ ptr ≤ s.m_end) (hsz : MIN_BLOCK_SIZE < size) :
    DeAllocate s ptr size = s ∧
    (∀ b e live s1 live1 n g q s2, Reach b e s live → (ptr, size) ∈ live →
      Steps b e (DeAllocate s ptr size) (live.erase (ptr, size)) s1 live1 →
      Fresh b e live1 g n → cursorWraps s1 n = false → Allocate s1 n g = some (q, s2) →
      blocksDisjoint (q, blockLen b e q n) (ptr, size)) := by
  have hnoop : DeAllocate s ptr size = s := by
    unfold DeAllocate
    rw [if_pos ⟨hin.1, hin.2⟩]
    simp only
    rw [if_neg]
    unfold sizeToAllocate
    split <;> omega
  refine ⟨hnoop, ?_⟩
  intro b e live s1 live1 n g q s2 hreach hlive hsteps hf hw ha
  obtain ⟨fl, hinv⟩ := Reach_Inv hreach
  have hbeg := hinv.begin_eq
  have hend := hinv.end_eq
  have hblk := hinv.blocks (ptr, size) hlive
  have hstl : sizeToAllocate size = size := by
    unfold sizeToAllocate
    rw [if_neg (by omega)]
  simp only [hstl] at hblk
  have hx1 : b ≤ (ptr, size).1 := by simp only; omega
  have hx2 : (ptr, size).1 + sizeToAllocate (ptr, size).2 ≤ e := by
    simp only [hstl]; omega
  have hperm : live.Perm (live.erase (ptr, size) ++ [(ptr, size)]) :=
    (perm_cons_erase_live hlive).trans (List.perm_append_singleton _ _).symm
  have hinv0 : ∃ fl, Inv b e (DeAllocate s ptr size) (live.erase (ptr, size) ++ [(ptr, size)]) fl := by
    rw [hnoop]
    exact ⟨fl, Inv_perm hinv hperm⟩
  obtain ⟨fl1, hinv1⟩ := Steps_Inv hx1 hx2 hinv0 hsteps
  obtain ⟨fl2, hinv2⟩ := Inv_alloc hinv1 (fun _ => Fresh_append_arena hf hx1 hx2) hw ha
  have h3 := (List.pairwise_append.1 hinv2.disjoint).2.1
  simp only [liveBlocks, List.map_cons, List.pairwise_cons] at h3
  have h4 := h3.1 (ptr, blockLen b e ptr size)
    (List.mem_map.2 ⟨(ptr, size), List.mem_append_right _ (List.mem_singleton.2 rfl), rfl⟩)
  rw [blockLen_arena (show b ≤ ptr by omega) (show ptr ≤ e by omega), hstl] at h4
  exact h4

/-- Instance of C15: on the arena over `[4096, 8191]` with the live block
`(4096, 200)`, `DeAllocate(4096, 200)` changes nothing, and the next
`Allocate(200)` returns 4296, a block that does not overlap `[4096, 4296)`. -/
theorem C15_large_block_never_reused_witness :
    DeAllocate { construct 4096 8191 zeroMem with m_curr := 4296 } 4096 200
      = { construct 4096 8191 zeroMem with m_curr := 4296 } ∧
    blocksDisjoint (4296, blockLen 4096 8191 4296 200) (4096, 200) :=
  ⟨(C15_large_block_never_reused { construct 4096 8191 zeroMem with m_curr := 4296 } 4096 200
      (by decide) (by decide)).1,
   (C15_large_block_never_reused { construct 4096 8191 zeroMem with m_curr := 4296 } 4096 200
      (by decide) (by decide)).2 4096 8191 [(4096, 200)] _ _ 200 100000 4296
      { construct 4096 8191 zeroMem with m_curr := 4496 }
      (Reach.alloc 200 100000 4096 { construct 4096 8191 zeroMem with m_curr := 4296 }
        (Reach.init zeroMem (by decide) (by decide) (by decide) :
          Reach 4096 8191 (construct 4096 8191 zeroMem) [])
        ⟨by decide, by decide, by simp⟩ (by rfl) rfl)
      (List.mem_cons_self _ _) Steps.refl ⟨by decide, by decide, by simp⟩ (by rfl) rfl⟩

/-! ## The free list is last-in-first-out -/

theorem DeAllocate_push {s : AlignedArenaAllocator} {p n : Nat}
    (h1 : s.m_begin ≤ p) (h2 : p ≤ s.m_end) (hn : n ≤ MIN_BLOCK_SIZE) :
    DeAllocate s p n =
      { s with mem := writePtr s.mem p s.m_freeListHead, m_freeListHead := p } := by
  unfold DeAllocate
  rw [if_pos ⟨h1, h2⟩]
  simp only [(sizeToAllocate_min_iff n).2 hn, if_true]

theorem Allocate_pop {s : AlignedArenaAllocator} (n g : Nat)
    (hn : n ≤ MIN_BLOCK_SIZE) (hh : s.m_freeListHead ≠ 0) :
    Allocate s n g =
      some (s.m_freeListHead, { s with m_freeListHead := readPtr s.mem s.m_freeListHead }) := by
  unfold Allocate
  simp only [(sizeToAllocate_min_iff n).2 hn, hh, ne_eq, not_false_eq_true, and_self, if_true]

theorem allocAll_append (l1 l2 : List (Nat × Nat)) : ∀ (s : AlignedArenaAllocator),
    allocAll s (l1 ++ l2) =
      match allocAll s l1 with
      | none => none
      | some (ps, s1) =>
        match allocAll s1 l2 with
        | none => none
        | some (ps2, s2) => some (ps ++ ps2, s2) := by
  induction l1 with
  | nil =>
    intro s
    simp only [List.nil_append, allocAll]
    cases allocAll s l2 with
    | none => rfl
    | some r => rfl
  | cons x rest ih =>
    intro s
    simp only [List.cons_append, allocAll]
    cases Allocate s x.1 x.2 with
    | none => rfl
    | some r =>
      obtain ⟨p, s1⟩ := r
      simp only
      rw [show rest.append l2 = rest ++ l2 from rfl, ih s1]
      cases allocAll s1 rest with
      | none => rfl
      | some r1 =>
        obtain ⟨ps, s2⟩ := r1
        simp only
        cases allocAll s2 l2 with
        | none => rfl
        | some r2 => rfl

theorem push_pop_round_trip (frees : List (Nat × Nat)) :
    ∀ (s : AlignedArenaAllocator) (reqs : List (Nat × Nat)),
    reqs.length = frees.length → s.m_freeListHead < 2 ^ 64 → s.m_end < 2 ^ 64 →
    (∀ x ∈ frees, s.m_begin ≤ x.1 ∧ x.1 ≤ s.m_end ∧ x.1 ≠ 0 ∧ x.2 ≤ MIN_BLOCK_SIZE) →
    (∀ r ∈ reqs, r.1 ≤ MIN_BLOCK_SIZE) →
    frees.Pairwise (fun x y => wordsApart x.1 y.1) →
    ∃ s1, allocAll (deallocAll s frees) reqs = some ((frees.map Prod.fst).reverse, s1) ∧
      s1.m_curr = s.m_curr ∧ s1.pool_size = s.pool_size ∧
      s1.m_globalAllocator = s.m_globalAllocator ∧
      s1.m_freeListHead = s.m_freeListHead ∧ s1.m_begin = s.m_begin ∧ s1.m_end = s.m_end ∧
      (∀ a, (∀ x ∈ frees, ¬ (x.1 ≤ a ∧ a < x.1 + 8)) → s1.mem a = s.mem a) := by
  induction frees with
  | nil =>
    intro s reqs hlen _ _ _ _ _
    have : reqs = [] := List.length_eq_zero.1 hlen
    subst this
    exact ⟨s, rfl, rfl, rfl, rfl, rfl, rfl, rfl, fun _ _ => rfl⟩
  | cons f rest ih =>
    intro s reqs hlen hhead hend hfrees hreqs hapart
    have hf := hfrees f (List.mem_cons_self _ _)
    rcases List.eq_nil_or_concat reqs with hnil | ⟨init, r, hcat⟩
    · subst hnil; simp at hlen
    · rw [List.concat_eq_append] at hcat
      subst hcat
      have hlen1 : init.length = rest.length := by
        simp only [List.length_append, List.length_cons, List.length_nil] at hlen
        omega
      have hpush := DeAllocate_push hf.1 hf.2.1 hf.2.2.2
      obtain ⟨hap1, hap2⟩ := List.pairwise_cons.1 hapart
      obtain ⟨s1, h1, h2, h3, h4, h5, h6, h7, h8⟩ :=
        ih (DeAllocate s f.1 f.2) init hlen1
          (by rw [hpush]; show f.1 < 2 ^ 64; omega)
          (by rw [hpush]; exact hend)
          (by
            intro x hx
            rw [hpush]
            exact hfrees x (List.mem_cons_of_mem _ hx))
          (fun x hx => hreqs x (List.mem_append_left _ hx))
          hap2
      rw [hpush] at h2 h3 h4 h5 h6 h7 h8
      simp only at h2 h3 h4 h5 h6 h7 h8
      have hr : r.1 ≤ MIN_BLOCK_SIZE :=
        hreqs r (List.mem_append_right _ (List.mem_singleton.2 rfl))
      have hpop := Allocate_pop r.1 r.2 hr (show s1.m_freeListHead ≠ 0 by rw [h5]; exact hf.2.2.1)
      have hlink : readPtr s1.mem s1.m_freeListHead = s.m_freeListHead := by
        rw [h5]
        have : readPtr s1.mem f.1 = readPtr (writePtr s.mem f.1 s.m_freeListHead) f.1 := by
          apply readPtr_congr
          intro i hi
          apply h8
          intro x hx
          have := hap1 x hx
          unfold wordsApart at this
          omega
        rw [this, readPtr_writePtr _ _ _ hhead]
      refine ⟨{ s1 with m_freeListHead := readPtr s1.mem s1.m_freeListHead }, ?_, h2, h3, h4,
        hlink, h6, h7, ?_⟩
      · show allocAll (deallocAll (DeAllocate s f.1 f.2) rest) (init ++ [r]) = _
        rw [allocAll_append, h1]
        simp only [allocAll, hpop, List.map_cons, List.reverse_cons, h5]
      · intro a ha
        show s1.mem a = s.mem a
        rw [h8 a (fun x hx => ha x (List.mem_cons_of_mem _ hx))]
        unfold writePtr
        rw [if_neg (ha f (List.mem_cons_self _ _))]

/-- C19 fails as stated: 4096 and 4100 are distinct addresses of the arena
`[4096, 8191]`, and after `DeAllocate(4096, 8)`, `DeAllocate(4100, 8)` two
calls `Allocate(8)` return 4100 and 4096 but leave the free-list head at
`2 ^ 44` instead of the null head from before: the link stored at 4100
overlaps the link stored at 4096.  With a third pointer 4104 freed in between
the third `Allocate(8)` is served by the bump path and moves the cursor. -/
theorem C19_overlapping_links_counterexample :
    (4096 ≠ 4100 ∧
      ∃ s1, allocAll (deallocAll (construct 4096 8191 zeroMem) [(4096, 8), (4100, 8)])
          [(8, 0), (8, 0)] = some ([4100, 4096], s1) ∧
        s1.m_freeListHead = 17592186044416 ∧
        s1.m_freeListHead ≠ (construct 4096 8191 zeroMem).m_freeListHead) ∧
    (∃ s1, allocAll (deallocAll (construct 4096 8191 zeroMem) [(4096, 8), (4104, 8), (4100, 8)])
          [(8, 0), (8, 0), (8, 0)] = some ([4100, 4104, 4096], s1) ∧
        s1.m_curr = 4160 ∧ s1.m_curr ≠ (construct 4096 8191 zeroMem).m_curr) := by
  refine ⟨⟨by decide, _, rfl, rfl, by decide⟩, _, rfl, rfl, by decide⟩

/-- C19 as amended: for every state of the 64-bit address space and non-null
arena pointers `p_1 .. p_n` that are pairwise at least 8 bytes apart (as the
starts of any two blocks are), after `DeAllocate(p_1, s_1)`, ...,
`DeAllocate(p_n, s_n)` with all `s_i <= 64` the next `n` requests of size at
most 64 all return and return `p_n, ..., p_1` in that order; cursor, pool
size and the calls on the backing allocator are untouched, the free-list head
is the one from before the deallocations, memory differs only in the `n` link
words, and every free list that lay in memory clear of those words is still
there. -/
theorem C19_free_list_lifo (s : AlignedArenaAllocator) (frees reqs : List (Nat × Nat))
    (hlen : reqs.length = frees.length)
    (hhead : s.m_freeListHead < 2 ^ 64) (hend : s.m_end < 2 ^ 64)
    (hfrees : ∀ x ∈ frees, s.m_begin ≤ x.1 ∧ x.1 ≤ s.m_end ∧ x.1 ≠ 0 ∧ x.2 ≤ MIN_BLOCK_SIZE)
    (hreqs : ∀ r ∈ reqs, r.1 ≤ MIN_BLOCK_SIZE)
    (hapart : frees.Pairwise (fun x y => wordsApart x.1 y.1)) :
    ∃ s1, allocAll (deallocAll s frees) reqs = some ((frees.map Prod.fst).reverse, s1) ∧
      s1.m_curr = s.m_curr ∧ s1.pool_size = s.pool_size ∧
      s1.m_globalAllocator = s.m_globalAllocator ∧
      s1.m_freeListHead = s.m_freeListHead ∧
      (∀ a, (∀ x ∈ frees, ¬ (x.1 ≤ a ∧ a < x.1 + 8)) → s1.mem a = s.mem a) ∧
      (∀ fl, IsChain s.mem s.m_freeListHead fl → (∀ q ∈ fl, ∀ x ∈ frees, wordsApart q x.1) →
        IsChain s1.mem s1.m_freeListHead fl) := by
  obtain ⟨s1, h1, h2, h3, h4, h5, _, _, h8⟩ :=
    push_pop_round_trip frees s reqs hlen hhead hend hfrees hreqs hapart
  refine ⟨s1, h1, h2, h3, h4, h5, h8, ?_⟩
  intro fl hc hq
  rw [h5]
  apply IsChain_frame fl _ hc
  intro q hqm
  apply readPtr_congr
  intro i hi
  apply h8
  intro x hx
  have := hq q hqm x hx
  unfold wordsApart at this
  omega

/-- Instance of C19 as amended: on the arena over `[4096, 8191]`, after
`DeAllocate` of 4096, 4160 and 4224 three calls `Allocate(8)` return 4224,
4160, 4096. -/
theorem C19_free_list_lifo_witness :
    ∃ s1, allocAll (deallocAll (construct 4096 8191 zeroMem) [(4096, 8), (4160, 8), (4224, 8)])
        [(8, 0), (8, 0), (8, 0)] = some ([4224, 4160, 4096], s1) ∧
      s1.m_curr = 4096 ∧ s1.m_freeListHead = 0 :=
  match C19_free_list_lifo (construct 4096 8191 zeroMem) [(4096, 8), (4160, 8), (4224, 8)]
      [(8, 0), (8, 0), (8, 0)] rfl (by decide) (by decide) (by decide) (by decide)
      (by decide) with
  | ⟨s1, h1, h2, _, _, h5, _, _⟩ => ⟨s1, h1, h2, h5⟩

/-! ## After an overrun -/

theorem Allocate_of_backing {s : AlignedArenaAllocator} {n : Nat} (g : Nat)
    (hbk : servedBy s n = Path.backing) : ∃ s2, Allocate s n g = some (g, s2) := by
  unfold servedBy at hbk
  unfold Allocate
  simp only
  by_cases hf : sizeToAllocate n = MIN_BLOCK_SIZE ∧ s.m_freeListHead ≠ 0
  · rw [if_pos hf] at hbk; cases hbk
  · rw [if_neg hf] at hbk
    rw [if_neg hf]
    cases hal : stdAlign ALIGNMENT sizeofThing s.m_curr s.pool_size with
    | none => rw [hal] at hbk; cases hbk
    | some r =>
      obtain ⟨c, sp⟩ := r
      rw [hal] at hbk
      simp only at hbk ⊢
      by_cases hc : c ≠ 0
      · rw [if_pos hc] at hbk
        rw [if_pos hc]
        by_cases hle : (c + sizeToAllocate n) % 2 ^ 64 ≤ s.m_end
        · rw [if_pos hle] at hbk; cases hbk
        · rw [if_neg hle]
          exact ⟨_, rfl⟩
      · rw [if_neg hc] at hbk; cases hbk

theorem servedBy_after_overrun (s : AlignedArenaAllocator) (n : Nat) (h : s.m_end < s.m_curr)
    (hc : s.m_curr < 2 ^ 64) (hw : cursorWraps s n = false) :
    servedBy s n = Path.freeList ∨ servedBy s n = Path.backing ∨ servedBy s n = Path.exit := by
  unfold servedBy
  by_cases hf : sizeToAllocate n = MIN_BLOCK_SIZE ∧ s.m_freeListHead ≠ 0
  · rw [if_pos hf]; exact Or.inl rfl
  · rw [if_neg hf]
    cases hal : stdAlign ALIGNMENT sizeofThing s.m_curr s.pool_size with
    | none => exact Or.inr (Or.inr rfl)
    | some r =>
      obtain ⟨c, sp⟩ := r
      have hlt := cursorWraps_false hw hf hal
      simp only
      by_cases hc0 : c ≠ 0
      · have := stdAlign_some hal hc hc0
        rw [if_pos hc0, if_neg (by omega)]
        exact Or.inr (Or.inl rfl)
      · rw [if_neg hc0]
        exact Or.inr (Or.inr rfl)

theorem stepOp_cursor_lt {s : AlignedArenaAllocator} {op : Op} {r : Option Nat}
    {s1 : AlignedArenaAllocator} (h : stepOp s op = some (r, s1)) (hr : op ≠ Op.reset)
    (hc : s.m_curr < 2 ^ 64) : s1.m_curr < 2 ^ 64 := by
  cases op with
  | alloc n g =>
    simp only [stepOp, Option.map_eq_some', Prod.mk.injEq] at h
    obtain ⟨⟨p, s0⟩, ha, -, hs⟩ := h
    simp only at hs; subst hs
    exact (Allocate_fields ha).2.2.2 hc
  | dealloc p n =>
    simp only [stepOp, Option.some.injEq, Prod.mk.injEq] at h
    have := DeAllocate_fields s p n
    rw [← h.2]
    omega
  | realloc p o n g =>
    simp only [stepOp, Option.map_eq_some', Prod.mk.injEq] at h
    obtain ⟨⟨q, s0⟩, ha, -, hs⟩ := h
    simp only at hs; subst hs
    exact (ReAllocate_fields ha).2.2 hc
  | reset => exact absurd rfl hr

theorem runOps_overrun_kept (ops : List Op) : ∀ (s s1 : AlignedArenaAllocator),
    Op.reset ∉ ops → s.m_curr < 2 ^ 64 → runWraps s ops = false → s.m_end < s.m_curr →
    runOps s ops = some s1 → s1.m_end < s1.m_curr ∧ s1.m_curr < 2 ^ 64 := by
  induction ops with
  | nil =>
    intro s s1 _ hc _ h hrun
    simp only [runOps, Option.some.injEq] at hrun
    subst hrun; exact ⟨h, hc⟩
  | cons op ops ih =>
    intro s s1 hr hc hw h hrun
    have hr1 : op ≠ Op.reset := fun h => hr (h ▸ List.mem_cons_self _ _)
    have hr2 : Op.reset ∉ ops := fun h => hr (List.mem_cons_of_mem _ h)
    simp only [runOps] at hrun
    cases hst : stepOp s op with
    | none => rw [hst] at hrun; simp at hrun
    | some r =>
      obtain ⟨r0, s0⟩ := r
      rw [hst] at hrun
      simp only [runWraps, hst, Bool.or_eq_false_iff] at hw
      have hf := stepOp_fields hst
      have := (hf.2.2.2 hw.1 hc).2 hr1
      exact ih s0 s1 hr2 (stepOp_cursor_lt hst hr1 hc) hw.2 (by omega) hrun

/-- C20, what the code does.  Once an `Allocate` has overrun the buffer, the
cursor stays above `end` through every sequence of calls without
`reset_pool` none of which wraps the cursor addition around `2 ^ 64`, and no
later `Allocate` that does not wrap either is served by the bump path: a
request not served by the free list is handed to the backing allocator
whenever `std::align` succeeds.  But `std::align` can fail: on the arena over
the 64 bytes `[4096, 4159]` the first `Allocate(65)` falls back, eight more
follow, and the tenth, with an empty free list, does not fall back but
exits. -/
theorem C20_sticky_exhaustion_until_exit :
    (∀ (s : AlignedArenaAllocator) (ops : List Op) (s1 : AlignedArenaAllocator) (n g : Nat),
      Op.reset ∉ ops → s.m_curr < 2 ^ 64 → runWraps s ops = false → s.m_end < s.m_curr →
      runOps s ops = some s1 →
      s1.m_end < s1.m_curr ∧
      (cursorWraps s1 n = false →
        servedBy s1 n ≠ Path.bump ∧
        (servedBy s1 n ≠ Path.freeList → servedBy s1 n ≠ Path.exit →
          ∃ s2, Allocate s1 n g = some (g, s2)))) ∧
    (∃ s1 s, servedBy (construct 4096 4159 zeroMem) 65 = Path.backing ∧
      Allocate (construct 4096 4159 zeroMem) 65 100000 = some (100000, s1) ∧
      runOps s1 (List.replicate 8 (Op.alloc 65 100000)) = some s ∧
      s.m_freeListHead = 0 ∧ servedBy s 65 = Path.exit ∧ Allocate s 65 100000 = none) := by
  constructor
  · intro s ops s1 n g hr hc hw h hrun
    have h1 := runOps_overrun_kept ops s s1 hr hc hw h hrun
    refine ⟨h1.1, ?_⟩
    intro hw1
    have h2 := servedBy_after_overrun s1 n h1.1 h1.2 hw1
    refine ⟨?_, ?_⟩
    · intro hb
      rw [hb] at h2
      rcases h2 with h2 | h2 | h2 <;> cases h2
    · intro hfl hex
      have hbk : servedBy s1 n = Path.backing := by
        rcases h2 with h2 | h2 | h2
        · exact absurd h2 hfl
        · exact h2
        · exact absurd h2 hex
      exact Allocate_of_backing g hbk
  · exact ⟨{ construct 4096 4159 zeroMem with
        m_curr := 4161, m_globalAllocator := [HeapCall.Allocate 65 100000] },
      { construct 4096 4159 zeroMem with
        m_curr := 4737, pool_size := 8,
        m_globalAllocator := List.replicate 9 (HeapCall.Allocate 65 100000) },
      by decide, rfl, rfl, rfl, by decide, rfl⟩

/-- Instance of C20: on the arena over `[4096, 8191]` after `Allocate(5000)`
overran, the cursor is 9096; `Allocate(8)` would fit the untouched buffer but
is handed to the backing allocator. -/
theorem C20_sticky_exhaustion_until_exit_witness :
    ∃ s2, Allocate { construct 4096 8191 zeroMem with
        m_curr := 9096, m_globalAllocator := [HeapCall.Allocate 5000 100000] } 8 200000
      = some (200000, s2) :=
  ((C20_sticky_exhaustion_until_exit.1
    { construct 4096 8191 zeroMem with
        m_curr := 9096, m_globalAllocator := [HeapCall.Allocate 5000 100000] } []
    { construct 4096 8191 zeroMem with
        m_curr := 9096, m_globalAllocator := [HeapCall.Allocate 5000 100000] } 8 200000
    (by decide) (by decide) (by rfl) (by decide) rfl).2 (by rfl)).2 (by decide) (by decide)

end ArenaAllocator
